import Mathlib

set_option maxRecDepth 8192

/-!
Verification development for the VibeCheck WhatsApp-chat analysis engine.

The development shallowly embeds the core of the repository — the transcript
parser (`src/parser.py`), the analyzer (`src/analyzers.py`) and the text
utilities (`src/utils.py`) — as executable Lean definitions, and proves or
refutes the frozen specification claims about them.

Embedding conventions:
* Python strings are Lean `String`s; character-level work happens on `List Char`.
* Python regular-expression character classes (`\d`, `\s`, `\w`) are modelled
  over ASCII, which is the alphabet the claims exercise.
* `pandas`/`numpy` operations are modelled by explicit list functions; where a
  pandas operation can raise (e.g. `.index[0]` / `.idxmax()` on an empty
  series, or an unbound local variable), the embedded function returns
  `Option` and `none` models the raised exception.
* Floating point means and `NaN` are modelled with `ℚ` and `Option ℚ`
  (`none` models `NaN`); the time arithmetic of the source is exact in the
  inputs considered, so no precision is lost.
* Third-party lexicon lookups (`textblob` sentiment, the `emoji` code-point
  table) are parameters of the embedding (`gs`, `ed`): the claims do not
  depend on their values.
-/

/-! ## Character classes (Python `re` over ASCII) -/

/-- Python regex `\d` (ASCII model). -/
def isDigitC (c : Char) : Bool := c.isDigit

/-- Python regex `\s` / `str.strip` whitespace (ASCII model):
space, tab, newline, carriage return, vertical tab, form feed. -/
def isSpaceC (c : Char) : Bool :=
  c = ' ' || c = '\t' || c = '\n' || c = '\r' || c = '\x0b' || c = '\x0c'

/-- Python regex `\w` (ASCII model): alphanumerics and underscore. -/
def isWordC (c : Char) : Bool := c.isAlphanum || c = '_'

/-- Python `str.strip()` on a list of characters. -/
def pyStripL (l : List Char) : List Char :=
  ((l.dropWhile isSpaceC).reverse.dropWhile isSpaceC).reverse

/-- Python `str.strip()`. -/
def pyStrip (s : String) : String := ⟨pyStripL s.data⟩

/-- Python `str.lower()` (ASCII model, applied character-wise). -/
def pyLower (s : String) : String := ⟨s.data.map Char.toLower⟩

/-- Substring containment test (Python `needle in haystack`). -/
def listContainsSub (needle haystack : List Char) : Bool :=
  match haystack with
  | [] => needle = []
  | _ :: t => haystack.take needle.length = needle || listContainsSub needle t

/-- Python `needle in haystack` for strings. -/
def strContains (haystack needle : String) : Bool :=
  listContainsSub needle.data haystack.data

/-- Split on a separator character (Python `str.split(sep)` semantics:
`""` gives `[""]`, separators delimit possibly-empty fields). -/
def splitOnChar (sep : Char) : List Char → List (List Char)
  | [] => [[]]
  | c :: t =>
    match splitOnChar sep t with
    | [] => [[]]
    | h :: rest => if c = sep then [] :: h :: rest else (c :: h) :: rest

/-- Python `sep.join(parts)`. -/
def pyJoin (sep : String) : List String → String
  | [] => ""
  | h :: t => t.foldl (fun acc s => acc ++ sep ++ s) h

/-! ## Calendar model (for `pandas` datetimes)

A parsed timestamp is a plain calendar value; `toSecs` maps it to seconds
since the Unix epoch via the standard civil-from-days algorithm, which is
exactly what a timezone-naive `pandas` datetime measures. -/

structure DateTimeVal where
  year : Nat
  month : Nat
  day : Nat
  hour : Nat
  minute : Nat
  second : Nat
  deriving DecidableEq

def isLeap (y : Nat) : Bool := (y % 4 = 0 && y % 100 ≠ 0) || y % 400 = 0

def daysInMonth (y m : Nat) : Nat :=
  if m = 2 then (if isLeap y then 29 else 28)
  else if m = 4 || m = 6 || m = 9 || m = 11 then 30
  else 31

/-- Days from civil date (y, m, d) to 1970-01-01, Hinnant's algorithm
(valid for the years ≥ 1 that the parser can produce). -/
def daysSinceEpoch (y m d : Nat) : Int :=
  let yAdj : Nat := if m ≤ 2 then y - 1 else y
  let era : Nat := yAdj / 400
  let yoe : Nat := yAdj % 400
  let mAdj : Nat := if m > 2 then m - 3 else m + 9
  let doy : Nat := (153 * mAdj + 2) / 5 + d - 1
  let doe : Nat := yoe * 365 + yoe / 4 - yoe / 100 + doy
  (era * 146097 + doe : Int) - 719468

/-- Seconds since the Unix epoch of a timezone-naive datetime. -/
def toSecs (t : DateTimeVal) : Int :=
  daysSinceEpoch t.year t.month t.day * 86400
    + (t.hour * 3600 + t.minute * 60 + t.second : Nat)

/-- `pandas` `Series.dt.day_name()`: 1970-01-01 was a Thursday. -/
def dayName (t : DateTimeVal) : String :=
  let d : Int := daysSinceEpoch t.year t.month t.day
  let idx : Nat := (d % 7).toNat
  [ "Thursday", "Friday", "Saturday", "Sunday", "Monday", "Tuesday",
    "Wednesday" ].getD idx "Thursday"

/-! ## Text utilities (`src/utils.py`) -/

/-- Character-level core of `clean_name`:
`re.sub(r'[^\w\s\-]', '', name).strip()`. -/
def cleanNameCore (l : List Char) : List Char :=
  pyStripL (l.filter (fun c => isWordC c || isSpaceC c || c = '-'))

/-- `clean_name(name, max_length=15)` from `src/utils.py`:
strip non word/space/hyphen characters, truncate to 15 characters plus
`".."`, and fall back to `"Unknown"` for an empty result. -/
def clean_name (name : String) : String :=
  let cleaned := cleanNameCore name.data
  if cleaned.length > 15 then ⟨cleaned.take 15 ++ "..".data⟩
  else if cleaned = [] then "Unknown" else ⟨cleaned⟩

/-- `is_media_message` from `src/utils.py`: lowercased substring test for
`'omitted'`, `'deleted'`, `'<media'`. -/
def is_media_message (message : String) : Bool :=
  let lowerMsg := pyLower message
  strContains lowerMsg "omitted" || strContains lowerMsg "deleted" ||
    strContains lowerMsg "<media"

/-- `has_link` from `src/utils.py`:
`re.search(r'http|www\.', message, re.IGNORECASE)`. -/
def has_link (message : String) : Bool :=
  strContains (pyLower message) "http" || strContains (pyLower message) "www."

/-- `extract_emojis` from `src/utils.py`, parameterized by the `emoji`
package's code-point table `ed` (a third-party data file). -/
def extract_emojis (ed : Char → Bool) (text : String) : List Char :=
  text.data.filter ed

/-! ## Regex engine

The five concrete patterns of `MESSAGE_PATTERNS` are embedded via small
continuation-passing combinators that mirror Python `re` backtracking:
greedy pieces try longest-first, lazy pieces shortest-first, optional
groups try the present branch first, and failure of a continuation
backtracks to the next candidate.  `re.match` anchors at the start; the
trailing `$` matches at the end of the string or just before one final
newline. -/

/-- The four captured groups: date, time, author, first-line body. -/
abbrev Groups := String × String × String × String

abbrev RxCont := List Char → Option Groups

/-- Literal character. -/
def chrTok (c : Char) (k : RxCont) : RxCont := fun l =>
  match l with
  | x :: xs => if x = c then k xs else none
  | [] => none

/-- Single character of a class, captured. -/
def clsChr (f : Char → Bool) (k : Char → RxCont) : RxCont := fun l =>
  match l with
  | x :: xs => if f x then k x xs else none
  | [] => none

/-- Try candidate lengths `n, n-1, …, lo` (greedy order). -/
def tryDesc (attempt : Nat → Option Groups) (lo : Nat) : Nat → Option Groups
  | 0 => if lo = 0 then attempt 0 else none
  | n + 1 =>
    if n + 1 < lo then none
    else
      match attempt (n + 1) with
      | some g => some g
      | none => tryDesc attempt lo n

/-- Try candidate lengths `i, i+1, …, i+fuel` (lazy order). -/
def tryAscFrom (attempt : Nat → Option Groups) (i : Nat) : Nat → Option Groups
  | 0 => attempt i
  | fuel + 1 =>
    match attempt i with
    | some g => some g
    | none => tryAscFrom attempt (i + 1) fuel

/-- Greedy bounded class repetition `f{lo,hi}`, consumed characters passed on. -/
def repCls (f : Char → Bool) (lo hi : Nat) (k : List Char → RxCont) : RxCont := fun l =>
  tryDesc
    (fun n =>
      if n ≤ l.length && (l.take n).all f then k (l.take n) (l.drop n) else none)
    lo hi

/-- Greedy unbounded class repetition `f*`, consumed characters passed on. -/
def starCls (f : Char → Bool) (k : List Char → RxCont) : RxCont := fun l =>
  tryDesc
    (fun n =>
      if n ≤ l.length && (l.take n).all f then k (l.take n) (l.drop n) else none)
    0 (l.takeWhile f).length

/-- Lazy `(.*?)` (dot excludes newline), captured. -/
def lazyDotStar (k : List Char → RxCont) : RxCont := fun l =>
  tryAscFrom
    (fun n =>
      if n ≤ l.length && (l.take n).all (fun c => c ≠ '\n') then
        k (l.take n) (l.drop n)
      else none)
    0 l.length

/-- Greedy `(.*)$`: capture non-newline characters such that the remainder
is the end of the string or one final newline. -/
def dotStarEnd (k : List Char → RxCont) : RxCont := fun l =>
  tryDesc
    (fun n =>
      if n ≤ l.length && (l.take n).all (fun c => c ≠ '\n')
          && (l.drop n = [] || l.drop n = ['\n']) then
        k (l.take n) (l.drop n)
      else none)
    0 l.length

def isApChar (c : Char) : Bool := c = 'A' || c = 'a' || c = 'P' || c = 'p'

def isMChar (c : Char) : Bool := c = 'M' || c = 'm'

/-- Optional meridiem `(?:\s*[AaPp][Mm])?` (greedy), consumed characters
passed on. -/
def ampmOpt (k : List Char → RxCont) : RxCont := fun l =>
  match
    starCls isSpaceC
      (fun sp => clsChr isApChar (fun a => clsChr isMChar (fun m => k (sp ++ [a, m])))) l
  with
  | some g => some g
  | none => k [] l

/-- Date group `(\d{1,2}sep\d{1,2}sep\d{2,4})`. -/
def dateGrp (sep : Char) (k : List Char → RxCont) : RxCont :=
  repCls isDigitC 1 2 fun d1 =>
    chrTok sep <|
      repCls isDigitC 1 2 fun d2 =>
        chrTok sep <|
          repCls isDigitC 2 4 fun d3 => k (d1 ++ sep :: d2 ++ sep :: d3)

/-- Time group with seconds `(\d{1,2}:\d{2}:\d{2}(?:\s*[AaPp][Mm])?)`. -/
def timeSecGrp (k : List Char → RxCont) : RxCont :=
  repCls isDigitC 1 2 fun h =>
    chrTok ':' <|
      repCls isDigitC 2 2 fun mi =>
        chrTok ':' <|
          repCls isDigitC 2 2 fun se =>
            ampmOpt fun ap => k (h ++ ':' :: mi ++ ':' :: se ++ ap)

/-- Time group without seconds `(\d{1,2}:\d{2}(?:\s*[AaPp][Mm])?)`. -/
def timeMinGrp (k : List Char → RxCont) : RxCont :=
  repCls isDigitC 1 2 fun h =>
    chrTok ':' <|
      repCls isDigitC 2 2 fun mi => ampmOpt fun ap => k (h ++ ':' :: mi ++ ap)

/-- Optional seconds `(?::\d{2})?` (greedy), consumed characters passed on. -/
def secOpt (k : List Char → RxCont) : RxCont := fun l =>
  match (chrTok ':' <| repCls isDigitC 2 2 fun se => k (':' :: se)) l with
  | some g => some g
  | none => k [] l

/-- Time group of pattern 3 `(\d{1,2}:\d{2}(?::\d{2})?(?:\s*[AaPp][Mm])?)`. -/
def timeOptSecGrp (k : List Char → RxCont) : RxCont :=
  repCls isDigitC 1 2 fun h =>
    chrTok ':' <|
      repCls isDigitC 2 2 fun mi =>
        secOpt fun se => ampmOpt fun ap => k (h ++ ':' :: mi ++ se ++ ap)

/-- Shared tail `\s*(.*?):\s*(.*)$` producing the groups. -/
def authorBody (d t : List Char) : RxCont :=
  starCls isSpaceC fun _ =>
    lazyDotStar fun a =>
      chrTok ':' <|
        starCls isSpaceC fun _ =>
          dotStarEnd fun b => fun _ => some (⟨d⟩, ⟨t⟩, ⟨a⟩, ⟨b⟩)

/-- Pattern 1:
`\[(\d{1,2}/\d{1,2}/\d{2,4}),\s*(\d{1,2}:\d{2}:\d{2}(?:\s*[AaPp][Mm])?)\]\s*(.*?):\s*(.*)$`. -/
def pat1 : List Char → Option Groups :=
  chrTok '[' <|
    dateGrp '/' fun d =>
      chrTok ',' <|
        starCls isSpaceC fun _ =>
          timeSecGrp fun t => chrTok ']' <| authorBody d t

/-- Pattern 2:
`\[(\d{1,2}/\d{1,2}/\d{2,4}),\s*(\d{1,2}:\d{2}(?:\s*[AaPp][Mm])?)\]\s*(.*?):\s*(.*)$`. -/
def pat2 : List Char → Option Groups :=
  chrTok '[' <|
    dateGrp '/' fun d =>
      chrTok ',' <|
        starCls isSpaceC fun _ =>
          timeMinGrp fun t => chrTok ']' <| authorBody d t

/-- Pattern 3:
`(\d{1,2}/\d{1,2}/\d{2,4}),\s*(\d{1,2}:\d{2}(?::\d{2})?(?:\s*[AaPp][Mm])?)\s*-\s*(.*?):\s*(.*)$`. -/
def pat3 : List Char → Option Groups :=
  dateGrp '/' fun d =>
    chrTok ',' <|
      starCls isSpaceC fun _ =>
        timeOptSecGrp fun t =>
          starCls isSpaceC fun _ =>
            chrTok '-' <| starCls isSpaceC fun _ => authorBody d t

/-- Pattern 4:
`\[(\d{1,2}-\d{1,2}-\d{2,4}),\s*(\d{1,2}:\d{2}:\d{2}(?:\s*[AaPp][Mm])?)\]\s*(.*?):\s*(.*)$`. -/
def pat4 : List Char → Option Groups :=
  chrTok '[' <|
    dateGrp '-' fun d =>
      chrTok ',' <|
        starCls isSpaceC fun _ =>
          timeSecGrp fun t => chrTok ']' <| authorBody d t

/-- Pattern 5:
`\[(\d{1,2}\.\d{1,2}\.\d{2,4}),\s*(\d{1,2}:\d{2}:\d{2}(?:\s*[AaPp][Mm])?)\]\s*(.*?):\s*(.*)$`. -/
def pat5 : List Char → Option Groups :=
  chrTok '[' <|
    dateGrp '.' fun d =>
      chrTok ',' <|
        starCls isSpaceC fun _ =>
          timeSecGrp fun t => chrTok ']' <| authorBody d t

/-- `MESSAGE_PATTERNS` from `src/parser.py`, as matchers indexed 0–4. -/
def MESSAGE_PATTERNS : List (List Char → Option Groups) := [pat1, pat2, pat3, pat4, pat5]

def matchPattern (i : Nat) : List Char → Option Groups := MESSAGE_PATTERNS.getD i pat1

/-! ## Pattern detection (`detect_best_pattern`, `src/parser.py` lines 37–63) -/

/-- The loop of `detect_best_pattern`: start from `best = patterns[0]`,
`best_count = 0`, and replace on strictly larger match counts. -/
def detectLoop {α : Type} (cnt : α → Nat) (best : α) (bc : Nat) : List α → α
  | [] => best
  | p :: ps => if cnt p > bc then detectLoop cnt p (cnt p) ps else detectLoop cnt best bc ps

/-- Match count of pattern `i` over the first-100-line sample
(each sampled line is stripped, as in the source). -/
def patCount (lines : List String) (i : Nat) : Nat :=
  (lines.take 100).countP fun line => (matchPattern i (pyStripL line.data)).isSome

/-- `detect_best_pattern(lines, MESSAGE_PATTERNS)`, returning the index of
the selected pattern. -/
def detect_best_pattern (lines : List String) : Nat :=
  detectLoop (patCount lines) 0 0 [0, 1, 2, 3, 4]

/-! ## Parser state machine (`parse_chat_content`, `src/parser.py` lines 103–120) -/

structure RawRec where
  date : String
  time : String
  author : String
  message : String
  deriving DecidableEq

/-- Parser loop state: accumulated records, current body buffer, and the
`date`, `time`, `author` variables (initially `None`). -/
structure PState where
  data : List RawRec
  buf : List String
  dateO : Option String
  timeO : Option String
  authorO : Option String
  deriving DecidableEq

/-- Python truthiness of the `author` variable: `None` and `""` are falsy. -/
def truthyStr : Option String → Bool
  | none => false
  | some s => s ≠ ""

/-- `normalize_date` from `src/parser.py`: replace `-` and `.` by `/`. -/
def normalize_date (s : String) : String :=
  ⟨s.data.map fun c => if c = '-' || c = '.' then '/' else c⟩

/-- The record appended on a flush:
`[normalize_date(date), time, author, ' '.flatten(message_buffer)]`. -/
def flushRec (s : PState) : RawRec :=
  { date := normalize_date (s.dateO.getD ""), time := s.timeO.getD "",
    author := s.authorO.getD "", message := pyJoin " " s.buf }

/-- One iteration of the parse loop over a raw line. -/
def parseStep (m : List Char → Option Groups) (s : PState) (line : String) : PState :=
  let l := pyStripL line.data
  match m l with
  | some (d, t, a, msg) =>
    let s1 := if truthyStr s.authorO then { s with data := s.data ++ [flushRec s] } else s
    { s1 with buf := [msg], dateO := some d, timeO := some t, authorO := some a }
  | none => if truthyStr s.authorO then { s with buf := s.buf ++ [(⟨l⟩ : String)] } else s

def initPState : PState := ⟨[], [], none, none, none⟩

/-- The flush after the loop (`if author: data.append(...)`). -/
def parseFinish (s : PState) : List RawRec :=
  if truthyStr s.authorO then s.data ++ [flushRec s] else s.data

/-- The full line loop of `parse_chat_content`. -/
def parseMessages (m : List Char → Option Groups) (lines : List String) : List RawRec :=
  parseFinish (lines.foldl (parseStep m) initPState)

/-- Python `str.splitlines()` (modelling `\n` separators, the only ones the
claims exercise). -/
def pySplitlines (s : String) : List String :=
  if s = "" then []
  else
    let parts := (splitOnChar '\n' s.data).map fun l => (⟨l⟩ : String)
    if s.data.getLast? = some '\n' then parts.dropLast else parts

/-! ## Datetime construction (`src/parser.py` lines 127–148)

`pd.to_datetime(df['Date'] + ' ' + df['Time'], dayfirst=..., errors='coerce')`
is modelled by `to_datetime` below: a model of the pandas/dateutil parser for
the `D/M/Y` + `H:MM[:SS][ AM/PM]` strings the grammars produce.  `dayfirst`
is a preference, not a mandate: when the preferred order yields an invalid
calendar date, the swapped order is tried before giving up, and
`errors='coerce'` turns failures into `NaT` (here `none`) instead of
raising. -/

def parseNatDigits (l : List Char) : Option Nat :=
  if l ≠ [] && l.all isDigitC then
    some (l.foldl (fun acc c => acc * 10 + (c.toNat - 48)) 0)
  else none

/-- dateutil's two-digit-year convention. -/
def adjustYear (y : Nat) : Nat :=
  if y < 100 then (if y < 69 then 2000 + y else 1900 + y) else y

def validDMY (y m d : Nat) : Prop :=
  1 ≤ m ∧ m ≤ 12 ∧ 1 ≤ d ∧ d ≤ daysInMonth y m

instance (y m d : Nat) : Decidable (validDMY y m d) := by
  unfold validDMY; infer_instance

/-- Date component of the pandas model: prefer the hinted day/month order,
fall back to the swapped order when the hinted one is not a valid date. -/
def parseDatePart (dayfirst : Bool) (dateStr : String) : Option (Nat × Nat × Nat) :=
  match (splitOnChar '/' dateStr.data).map (fun l => (⟨l⟩ : String)) with
  | [a, b, c] =>
    match parseNatDigits a.data, parseNatDigits b.data, parseNatDigits c.data with
    | some na, some nb, some nc =>
      let y := adjustYear nc
      let d := if dayfirst then na else nb
      let m := if dayfirst then nb else na
      if validDMY y m d then some (y, m, d)
      else if validDMY y d m then some (y, d, m)
      else none
    | _, _, _ => none
  | _ => none

/-- Time component of the pandas model: `H:MM[:SS]` with an optional
meridiem suffix. -/
def parseTimePart (timeStr : String) : Option (Nat × Nat × Nat) :=
  let t := (pyLower timeStr).data
  let n := t.length
  let mer : Option Bool :=
    if t.drop (n - 2) = ['a', 'm'] then some false
    else if t.drop (n - 2) = ['p', 'm'] then some true
    else none
  let core := if mer.isSome then pyStripL (t.take (n - 2)) else t
  let parts := (splitOnChar ':' core).map fun l => (⟨l⟩ : String)
  let fields : Option (Nat × Nat × Nat) :=
    match parts with
    | [h, mi] =>
      match parseNatDigits h.data, parseNatDigits mi.data with
      | some nh, some nmi => some (nh, nmi, 0)
      | _, _ => none
    | [h, mi, se] =>
      match parseNatDigits h.data, parseNatDigits mi.data, parseNatDigits se.data with
      | some nh, some nmi, some nse => some (nh, nmi, nse)
      | _, _, _ => none
    | _ => none
  match fields, mer with
  | some (h, mi, se), none =>
    if h ≤ 23 ∧ mi ≤ 59 ∧ se ≤ 59 then some (h, mi, se) else none
  | some (h, mi, se), some pm =>
    if 1 ≤ h ∧ h ≤ 12 ∧ mi ≤ 59 ∧ se ≤ 59 then
      some ((if pm then (if h = 12 then 12 else h + 12) else (if h = 12 then 0 else h)), mi, se)
    else none
  | none, _ => none

/-- Model of `pd.to_datetime(date + ' ' + time, dayfirst=..., errors='coerce')`
on the grammar-shaped strings of this parser. -/
def to_datetime (dayfirst : Bool) (dateStr timeStr : String) : Option DateTimeVal :=
  match parseDatePart dayfirst dateStr, parseTimePart timeStr with
  | some (y, m, d), some (hh, mi, ss) => some ⟨y, m, d, hh, mi, ss⟩
  | _, _ => none

/-- The datetime-strategy loop of `parse_chat_content` (lines 128–140),
generic in the per-row parser `rp`: compute the day-first column; if the
parsed count exceeds half the rows, keep it (`break`), otherwise the loop
runs its second iteration and the month-first column is what remains in
`datetime_col`.  With `errors='coerce'` the `except`/`None` fall-back of
lines 142–145 is unreachable. -/
def datetimeColumn {α : Type} (rp : Bool → α → Option DateTimeVal) (rows : List α) :
    List (Option DateTimeVal) :=
  let c1 := rows.map (rp true)
  if 2 * c1.countP Option.isSome > rows.length then c1 else rows.map (rp false)

/-- `df['DateTime'] = datetime_col; df = df.dropna(subset=['DateTime'])`. -/
def attachDatetime {α β : Type} (mk : α → DateTimeVal → β)
    (rp : Bool → α → Option DateTimeVal) (rows : List α) : List β :=
  (rows.zip (datetimeColumn rp rows)).filterMap fun p => p.2.map (mk p.1)

/-- One fully-parsed message record (a row of the final DataFrame). -/
structure Row where
  date : String
  time : String
  author : String
  message : String
  dateTime : DateTimeVal
  deriving DecidableEq

def rowParse (dayfirst : Bool) (r : RawRec) : Option DateTimeVal :=
  to_datetime dayfirst r.date r.time

def mkRow (r : RawRec) (dt : DateTimeVal) : Row :=
  ⟨r.date, r.time, r.author, r.message, dt⟩

/-- `parse_chat_content` from `src/parser.py`: the full pipeline from raw
text to the Message Store. -/
def parse_chat_content (content : String) : List Row :=
  let lines := pySplitlines content
  if lines = [] then []
  else
    let recs := parseMessages (matchPattern (detect_best_pattern lines)) lines
    if recs = [] then [] else attachDatetime mkRow rowParse recs

/-! ## Exact rational arithmetic

Python floats are modelled by exact rationals.  On every value the claims
exercise (minute gaps, means of finitely many such, percentages) the float
computation of the source is exact, so nothing is lost.  A dedicated
normalized-fraction type is used because its arithmetic is plain `Nat`/`Int`
computation, so `decide` can evaluate the metrics on concrete stores. -/

structure Frac where
  num : Int
  den : Nat
  deriving DecidableEq

/-- Normalized fraction `n / d` (all `Frac` values are built through this,
so denominators are positive and in lowest terms). -/
def Frac.norm (n : Int) (d : Nat) : Frac :=
  if d = 0 then ⟨0, 1⟩
  else
    let g := Int.gcd n d
    if g = 0 then ⟨0, 1⟩ else ⟨n / g, d / g⟩

def Frac.ofInt (n : Int) : Frac := ⟨n, 1⟩

instance (n : Nat) : OfNat Frac n := ⟨⟨Int.ofNat n, 1⟩⟩

def Frac.add (a b : Frac) : Frac :=
  Frac.norm (a.num * b.den + b.num * a.den) (a.den * b.den)

def Frac.mulInt (a : Frac) (k : Int) : Frac := Frac.norm (a.num * k) a.den

def Frac.divNat (a : Frac) (k : Nat) : Frac := Frac.norm a.num (a.den * k)

/-- Strict order by cross multiplication (denominators are positive). -/
def Frac.blt (a b : Frac) : Bool := a.num * b.den < b.num * a.den

def Frac.ble (a b : Frac) : Bool := a.num * b.den ≤ b.num * a.den

def Frac.sum (l : List Frac) : Frac := l.foldl Frac.add 0

/-- Exact mean of a non-empty list. -/
def Frac.mean (l : List Frac) : Frac := (Frac.sum l).divNat l.length

/-- Mean with pandas `NaN`-on-empty semantics (`none` models `NaN`). -/
def fmean (l : List Frac) : Option Frac :=
  if l = [] then none else some (Frac.mean l)

/-- Python `round(x, 1)` (round half to even, at one decimal place). -/
def round1 (x : Frac) : Frac :=
  let n10 := x.num * 10
  let fl := Int.fdiv n10 x.den
  let r := n10 - fl * x.den
  let n : Int :=
    if 2 * r < (x.den : Int) then fl
    else if 2 * r > (x.den : Int) then fl + 1
    else if fl % 2 = 0 then fl else fl + 1
  Frac.norm n 10

/-! ## pandas-style helpers

`value_counts()` sorts counts descending; `groupby` (with its default
`sort=True`) produces keys in ascending order; `idxmax`/`idxmin` return the
first index attaining the extremum; `Counter.most_common` orders ties by
first encounter.  Sorting is modelled by a stable insertion sort; the one
claim that is *about* tie stability of the unstable numpy quicksort is not
settled by this model (see C6). -/

/-- Stable insertion of `x` after all already-placed `≤`-elements. -/
def stableInsert {α : Type} (le : α → α → Bool) (x : α) : List α → List α
  | [] => [x]
  | y :: ys => if le y x then y :: stableInsert le x ys else x :: y :: ys

/-- Stable sort (insertion sort): ties keep their original relative order. -/
def stableSort {α : Type} (le : α → α → Bool) (l : List α) : List α :=
  l.foldl (fun acc x => stableInsert le x acc) []

/-- Distinct elements in order of first occurrence. -/
def firstOccur {α : Type} [DecidableEq α] (l : List α) : List α :=
  l.foldl (fun acc x => if x ∈ acc then acc else acc ++ [x]) []

/-- `Series.value_counts()` / `Counter.most_common`: pairs `(key, count)`,
counts descending, ties in first-occurrence order. -/
def valueCounts {α : Type} [DecidableEq α] (l : List α) : List (α × Nat) :=
  stableSort (fun a b => b.2 ≤ a.2) ((firstOccur l).map fun k => (k, l.count k))

/-- `Series.idxmax()`: first key attaining the maximal value. -/
def idxmaxBy {α β : Type} (lt : β → β → Bool) (l : List (α × β)) : Option α :=
  (l.foldl
      (fun acc p =>
        match acc with
        | none => some p
        | some q => if lt q.2 p.2 then some p else acc)
      none).map Prod.fst

/-- `groupby(...).mean()` with the default `sort=True`: keys ascending. -/
def groupbyMean (pairs : List (String × Frac)) : List (String × Frac) :=
  (stableSort (fun a b => decide (a ≤ b)) (firstOccur (pairs.map Prod.fst))).map
    fun k => (k, Frac.mean (pairs.filterMap fun p => if p.1 = k then some p.2 else none))

/-- `groupby(...).sum()` over natural values, keys ascending. -/
def groupbySum (pairs : List (String × Nat)) : List (String × Nat) :=
  (stableSort (fun a b => decide (a ≤ b)) (firstOccur (pairs.map Prod.fst))).map
    fun k => (k, (pairs.filterMap fun p => if p.1 = k then some p.2 else none).sum)

/-! ## Derived per-row columns (`ChatAnalyzer.__init__` / `_precompute`) -/

def cleanAuthor (r : Row) : String := clean_name r.author

def hourOf (r : Row) : Nat := r.dateTime.hour

def dayOf (r : Row) : String := dayName r.dateTime

def msgLen (r : Row) : Nat := r.message.length

/-- Sorting by the `DateTime` column.  The source uses
`DataFrame.sort_values('DateTime')` with numpy's default (unstable)
quicksort; the model commits to *a* sort by timestamp (stable insertion
sort).  Statements proved below do not depend on the tie order except where
explicitly discussed (claim C6). -/
def sortByDT (rows : List Row) : List Row :=
  stableSort (fun a b => toSecs a.dateTime ≤ toSecs b.dateTime) rows

/-- Rows paired with the shifted previous row (`Author.shift(1)`). -/
def withPrev (l : List Row) : List (Row × Option Row) :=
  l.zip (none :: l.map some)

/-- Rows paired with the next row (`shift(-1)`). -/
def withNext (l : List Row) : List (Row × Option Row) :=
  l.zip ((l.map some).drop 1 ++ [none])

/-- `Time_Diff` in minutes between two rows. -/
def timeDiffMin (p r : Row) : Frac :=
  Frac.norm (toSecs r.dateTime - toSecs p.dateTime) 60

/-- Gap in hours (for conversation roles). -/
def timeDiffHour (p r : Row) : Frac :=
  Frac.norm (toSecs r.dateTime - toSecs p.dateTime) 3600

/-! ## Metrics (`src/analyzers.py`)

Each metric returns a result structure holding the claim-relevant fields of
the Python result dictionary.  Templated insight strings are represented by
the values interpolated into them (or by a dedicated constructor for the
designated constant fall-back texts).  A metric that can raise returns
`Option`, with `none` modelling the exception. -/

/-- `get_summary` result.  `top_name`/`top_count`/`top_pct`, `peak_hour`,
`busiest_day` and `total_days` are also the values interpolated into the
four `key_insights` sentences. -/
structure SummaryResult where
  startDT : DateTimeVal
  endDT : DateTimeVal
  total_messages : Nat
  total_days : Nat
  messages_per_day : Frac
  unique_participants : Nat
  top_name : String
  top_count : Nat
  top_pct : Frac
  peak_hour : Nat
  busiest_day : String
  deriving DecidableEq

def firstKey {α : Type} (l : List (α × Nat)) (dflt : α) : α :=
  match l with
  | [] => dflt
  | p :: _ => p.1

/-- `get_summary` (lines 43–86).  Note `df['Author'].value_counts()` — the
top contributor is counted over *raw* author names; `value_counts().index[0]`
raises `IndexError` on an empty store (modelled by `none`). -/
def get_summary (rows : List Row) : Option SummaryResult :=
  match rows, valueCounts (rows.map (·.author)) with
  | r0 :: rest, (ta, tc) :: _ =>
    let s := (rest.foldl (fun acc r => if toSecs r.dateTime < toSecs acc then r.dateTime else acc)
      r0.dateTime)
    let e := (rest.foldl (fun acc r => if toSecs r.dateTime > toSecs acc then r.dateTime else acc)
      r0.dateTime)
    let days0 := (toSecs e - toSecs s).toNat / 86400
    let days := if days0 = 0 then 1 else days0
    let n := (r0 :: rest).length
    some
      { startDT := s, endDT := e, total_messages := n, total_days := days
        messages_per_day := round1 (Frac.norm n days)
        unique_participants := (firstOccur ((r0 :: rest).map (·.author))).length
        top_name := clean_name ta, top_count := tc
        top_pct := round1 (Frac.norm (tc * 100) n)
        peak_hour := firstKey (valueCounts ((r0 :: rest).map hourOf)) 0
        busiest_day := firstKey (valueCounts ((r0 :: rest).map dayOf)) "" }
  | _, _ => none

structure VolumeResult where
  data : List (String × Nat)
  total_messages : Nat
  top_contributor : Option String
  insight : Option (String × Nat × Frac)
  deriving DecidableEq

/-- `analyze_volume` (lines 88–120): counts per *cleaned* author, top
`limit`; the insight percentage divides by the full total. -/
def analyze_volume (limit : Nat) (rows : List Row) : VolumeResult :=
  let volume := (valueCounts (rows.map cleanAuthor)).take limit
  { data := volume
    total_messages := rows.length
    top_contributor := volume.head?.map Prod.fst
    insight := volume.head?.map fun p => (p.1, p.2, round1 (Frac.norm (p.2 * 100) rows.length)) }

structure SentimentResult where
  data : List (String × Frac × Bool)
  most_positive : Option String
  average_sentiment : Option Frac
  insight : Option (String × Frac)
  deriving DecidableEq

/-- `analyze_sentiment` (lines 122–168), parameterized by the TextBlob
polarity function `gs`.  A media-placeholder message contributes the fixed
score 0; the data entries carry `round(score*100, 1)` and the
`category` flag `score > 0`. -/
def analyze_sentiment (gs : String → Frac) (limit : Nat) (rows : List Row) : SentimentResult :=
  let sentOf : Row → Frac := fun r => if is_media_message r.message then 0 else gs r.message
  let topA := ((valueCounts (rows.map cleanAuthor)).take limit).map Prod.fst
  let sdf := rows.filter fun r => topA.contains (cleanAuthor r)
  let avg := stableSort (fun a b => Frac.ble b.2 a.2)
    (groupbyMean (sdf.map fun r => (cleanAuthor r, sentOf r)))
  { data := avg.map fun p => (p.1, round1 (p.2.mulInt 100), Frac.blt 0 p.2)
    most_positive := avg.head?.map Prod.fst
    average_sentiment := (fmean (rows.map sentOf)).map fun m => round1 (m.mulInt 100)
    insight := avg.head?.map fun p => (p.1, round1 (p.2.mulInt 100)) }

/-- The reply filter of `analyze_response_time` (lines 183–192): on the
timestamp-sorted frame, keep rows whose (raw) author differs from the
previous row's author with a strictly positive gap under 720 minutes.
Each kept reply is paired with its `Time_Diff` in minutes. -/
def repliesOf (rows : List Row) : List (Row × Frac) :=
  (withPrev (sortByDT rows)).filterMap fun p =>
    match p.2 with
    | none => none
    | some prev =>
      let d := timeDiffMin prev p.1
      if p.1.author ≠ prev.author ∧ Frac.blt d 720 ∧ Frac.blt 0 d then some (p.1, d) else none

/-- Insight of the response-time metric: the designated fall-back text
`"Not enough conversation data to calculate response times."` or the
templated fastest-responder sentence. -/
inductive RespInsight
  | fallback
  | fastest (name : String) (minutes : Frac)
  deriving DecidableEq

structure RespResult where
  data : List (String × Frac)
  fastest_responder : Option String
  average_response_time : Option Frac
  insight : Option RespInsight
  deriving DecidableEq

/-- `analyze_response_time` (lines 170–217). -/
def analyze_response_time (limit : Nat) (rows : List Row) : RespResult :=
  let rep := repliesOf rows
  if rep = [] then
    { data := [], fastest_responder := none, average_response_time := none
      insight := some .fallback }
  else
    let topA := ((valueCounts (rows.map cleanAuthor)).take limit).map Prod.fst
    let rep2 := rep.filter fun p => topA.contains (cleanAuthor p.1)
    let avg := stableSort (fun a b => Frac.ble a.2 b.2)
      (groupbyMean (rep2.map fun p => (cleanAuthor p.1, p.2)))
    { data := avg.map fun p => (p.1, round1 p.2)
      fastest_responder := avg.head?.map Prod.fst
      average_response_time := (fmean (rep2.map Prod.snd)).map round1
      insight := avg.head?.map fun p => RespInsight.fastest p.1 (round1 p.2) }

structure HourlyResult where
  data : List (Nat × Nat)
  peak_hour : Nat
  peak_hour_label : String
  deriving DecidableEq

def hourLabel (h : Nat) : String := (if h < 10 then "0" else "") ++ toString h ++ ":00"

/-- `analyze_hourly_activity` (lines 219–248): all 24 buckets, zero-filled;
the peak is `idxmax` over the reindexed series (lowest hour wins ties). -/
def analyze_hourly_activity (rows : List Row) : HourlyResult :=
  let hours := rows.map hourOf
  let data := (List.range 24).map fun h => (h, hours.count h)
  let peak := (idxmaxBy (fun a b => decide (a < b)) data).getD 0
  { data := data, peak_hour := peak, peak_hour_label := hourLabel peak }

structure WeeklyResult where
  data : List (String × Nat)
  busiest_day : String
  busiest_count : Nat
  weekend : Nat
  weekday : Nat
  deriving DecidableEq

def days_order : List String :=
  ["Monday", "Tuesday", "Wednesday", "Thursday", "Friday", "Saturday", "Sunday"]

/-- `analyze_weekly_activity` (lines 250–281): Monday-first zero-filled
buckets, weekend vs weekday totals. -/
def analyze_weekly_activity (rows : List Row) : WeeklyResult :=
  let days := rows.map dayOf
  let data := days_order.map fun d => (d, days.count d)
  { data := data
    busiest_day := (idxmaxBy (fun a b => decide (a < b)) data).getD "Monday"
    busiest_count := (data.map Prod.snd).foldl max 0
    weekend := days.count "Saturday" + days.count "Sunday"
    weekday := days.count "Monday" + days.count "Tuesday" + days.count "Wednesday"
      + days.count "Thursday" + days.count "Friday" }

structure EmojiResult where
  top_users : List (String × Nat)
  top_emojis : List (Char × Nat)
  author_summaries : List (String × List (Char × Nat) × Char)
  total_emojis : Nat
  insight : Option (String × Nat)
  deriving DecidableEq

/-- `analyze_emojis` (lines 283–345), parameterized by the emoji table. -/
def analyze_emojis (ed : Char → Bool) (limit : Nat) (rows : List Row) : EmojiResult :=
  let emo : Row → List Char := fun r => extract_emojis ed r.message
  let topA := ((valueCounts (rows.map cleanAuthor)).take limit).map Prod.fst
  let users := stableSort (fun a b => b.2 ≤ a.2)
    (groupbySum ((rows.filter fun r => topA.contains (cleanAuthor r)).map
      fun r => (cleanAuthor r, (emo r).length)))
  let allE := (rows.map emo).flatten
  { top_users := users
    top_emojis := (valueCounts allE).take limit
    author_summaries := topA.filterMap fun a =>
      match valueCounts ((rows.filter fun r => cleanAuthor r == a).map emo).flatten with
      | [] => none
      | p :: t => some (a, (p :: t).take 5, p.1)
    total_emojis := allE.length
    insight := users.head?.map fun p => (p.1, p.2) }

structure MsgLenResult where
  data : List (String × Frac)
  longest_author : String
  longest_len : Nat
  longest_preview : String
  insight : Option (String × Frac)
  deriving DecidableEq

/-- `Series.idxmax()` over `msg_length`: first row attaining the maximum
length, `none` (a raised `ValueError`) when the store is empty. -/
def idxmaxRow (rows : List Row) : Option Row :=
  rows.foldl
    (fun acc r =>
      match acc with
      | none => some r
      | some q => if msgLen q < msgLen r then some r else acc)
    none

/-- Python `round(x, 0)` (round half to even, to an integer). -/
def round0 (x : Frac) : Frac :=
  let fl := Int.fdiv x.num x.den
  let r := x.num - fl * x.den
  Frac.ofInt
    (if 2 * r < (x.den : Int) then fl
     else if 2 * r > (x.den : Int) then fl + 1
     else if fl % 2 = 0 then fl else fl + 1)

/-- `analyze_message_length` (lines 347–386): `idxmax` on the empty store
raises, hence `Option`. -/
def analyze_message_length (limit : Nat) (rows : List Row) : Option MsgLenResult :=
  let topA := ((valueCounts (rows.map cleanAuthor)).take limit).map Prod.fst
  let avg := stableSort (fun a b => Frac.ble b.2 a.2)
    (groupbyMean ((rows.filter fun r => topA.contains (cleanAuthor r)).map
      fun r => (cleanAuthor r, Frac.ofInt (msgLen r))))
  match idxmaxRow rows with
  | none => none
  | some lr =>
    some
      { data := avg.map fun p => (p.1, round1 p.2)
        longest_author := clean_name lr.author
        longest_len := msgLen lr
        longest_preview :=
          if lr.message.length > 200 then (⟨lr.message.data.take 200⟩ : String) ++ "..."
          else lr.message
        insight := avg.head?.map fun p => (p.1, round0 p.2) }

/-- Insight of the links metric: the designated `"No links shared in this
chat!"` text or the templated top-sharer sentence. -/
inductive LinksInsight
  | noLinks
  | topLinker (name : String) (count : Nat)
  deriving DecidableEq

structure LinksResult where
  data : List (String × Nat)
  total_links : Nat
  top_sharer : Option String
  insight : LinksInsight
  deriving DecidableEq

/-- `analyze_links` (lines 388–425). -/
def analyze_links (limit : Nat) (rows : List Row) : LinksResult :=
  let hl : Row → Bool := fun r => has_link r.message
  let topA := ((valueCounts (rows.map cleanAuthor)).take limit).map Prod.fst
  let sharers := stableSort (fun a b => b.2 ≤ a.2)
    (groupbySum ((rows.filter fun r => topA.contains (cleanAuthor r)).map
      fun r => (cleanAuthor r, if hl r then 1 else 0)))
  { data := sharers
    total_links := rows.countP hl
    top_sharer :=
      match sharers with
      | (n, c) :: _ => if c > 0 then some n else none
      | [] => none
    insight :=
      match sharers with
      | (n, c) :: _ => if c > 0 then .topLinker n c else .noLinks
      | [] => .noLinks }

structure LeaderboardResult where
  data : List (Nat × String × Nat × Frac)
  deriving DecidableEq

/-- `get_leaderboard` (lines 427–453): note `self.df['Author'].value_counts()`
— buckets are *raw* author names, displayed through `clean_name`. -/
def get_leaderboard (limit : Nat) (rows : List Row) : LeaderboardResult :=
  let top := (valueCounts (rows.map (·.author))).take limit
  { data := top.enum.map fun p =>
      (p.1 + 1, clean_name p.2.1, p.2.2, round1 (Frac.norm (p.2.2 * 100) rows.length)) }

structure RolesResult where
  starters : List (String × Nat)
  enders : List (String × Nat)
  top_starter : Option String
  top_ender : Option String
  insightStarter : Option (String × Nat)
  insightEnder : Option (String × Nat)
  deriving DecidableEq

/-- `analyze_conversation_roles` (lines 455–498): starters follow a silence
gap of more than 3 hours, enders precede one; the first/last rows are
excluded by the `NaN` gap. -/
def analyze_conversation_roles (rows : List Row) : RolesResult :=
  let sorted := sortByDT rows
  let starters := (withPrev sorted).filterMap fun p =>
    p.2.bind fun prev => if Frac.blt 3 (timeDiffHour prev p.1) then some p.1 else none
  let sc := (valueCounts (starters.map cleanAuthor)).take 10
  let enders := (withNext sorted).filterMap fun p =>
    p.2.bind fun nxt => if Frac.blt 3 (timeDiffHour p.1 nxt) then some p.1 else none
  let ec := (valueCounts (enders.map cleanAuthor)).take 10
  { starters := sc, enders := ec
    top_starter := sc.head?.map Prod.fst, top_ender := ec.head?.map Prod.fst
    insightStarter := sc.head?, insightEnder := ec.head? }

/-- `clean_name` applied to the current-author variable, which is `None`
before the first row (Python would render `str(None)`). -/
def pyCleanOpt : Option String → String
  | some a => clean_name a
  | none => "None"

/-- One iteration of the `detect_monologues` run loop.  State:
(closed runs, `current_author`, `current_count`).  Authors are compared
*raw*. -/
def monoStep (minc : Nat) (st : List (String × Nat) × Option String × Nat) (r : Row) :
    List (String × Nat) × Option String × Nat :=
  if st.2.1 = some r.author then (st.1, st.2.1, st.2.2 + 1)
  else
    ((if st.2.2 ≥ minc then st.1 ++ [(pyCleanOpt st.2.1, st.2.2)] else st.1), some r.author, 1)

def addCount (l : List (String × Nat)) (k : String) (v : Nat) : List (String × Nat) :=
  if l.any (fun p => p.1 == k) then l.map fun p => if p.1 == k then (p.1, p.2 + v) else p
  else l ++ [(k, v)]

/-- Insight of the monologue metric: the designated "No monologues
detected!" text or the templated top-monologuer sentence. -/
inductive MonoInsight
  | balanced
  | top (name : String) (total : Nat)
  deriving DecidableEq

structure MonoResult where
  data : List (String × Nat)
  top_monologuer : Option String
  insight : MonoInsight
  deriving DecidableEq

/-- `detect_monologues` (lines 500–562). -/
def detect_monologues (minc : Nat) (rows : List Row) : MonoResult :=
  let st := (sortByDT rows).foldl (monoStep minc) ([], none, 0)
  let runs := if st.2.2 ≥ minc then st.1 ++ [(pyCleanOpt st.2.1, st.2.2)] else st.1
  if runs = [] then { data := [], top_monologuer := none, insight := .balanced }
  else
    let totals := runs.foldl (fun acc p => addCount acc p.1 p.2) []
    let sortedT := (stableSort (fun a b => b.2 ≤ a.2) totals).take 10
    { data := sortedT
      top_monologuer := sortedT.head?.map Prod.fst
      insight :=
        match sortedT with
        | p :: _ => .top p.1 p.2
        | [] => .balanced }

def addBadge (l : List (String × List String)) (name badge : String) :
    List (String × List String) :=
  if l.any (fun p => p.1 == name) then
    l.map fun p => if p.1 == name then (p.1, p.2 ++ [badge]) else p
  else l ++ [(name, [badge])]

/-- `calculate_achievements` result: the badge dictionary plus the values
interpolated into the insight sentence (`chatterbox`, and the lightning
author — `none` renders as `'everyone'` when there are no replies). -/
structure AchResult where
  achievements : List (String × List String)
  chatterbox : String
  lightningOpt : Option String
  deriving DecidableEq

/-- `calculate_achievements` (lines 564–629).  Two raise paths are modelled
by `none`: on an empty store `value_counts().index[0]` raises `IndexError`;
and when replies exist but none of their authors is in the top 10 by
volume, the insight f-string references the unbound local `lightning`
(`NameError`). -/
def calculate_achievements (ed : Char → Bool) (rows : List Row) : Option AchResult :=
  let ach0 : List (String × List String) := []
  let night := rows.filter fun r => hourOf r ≤ 5
  let ach1 :=
    match valueCounts (night.map cleanAuthor) with
    | [] => ach0
    | (n, _) :: _ => addBadge ach0 n "🦉 Night Owl"
  let early := rows.filter fun r => 5 ≤ hourOf r && hourOf r ≤ 7
  let ach2 :=
    match valueCounts (early.map cleanAuthor) with
    | [] => ach1
    | (n, _) :: _ => addBadge ach1 n "🐦 Early Bird"
  let topA := ((valueCounts (rows.map cleanAuthor)).take 10).map Prod.fst
  let ach3 :=
    if topA.isEmpty then ach2
    else
      match idxmaxBy Frac.blt (groupbyMean
          ((rows.filter fun r => topA.contains (cleanAuthor r)).map fun r =>
            (cleanAuthor r, Frac.norm ((extract_emojis ed r.message).length) (msgLen r + 1)))) with
      | none => ach2
      | some n => addBadge ach2 n "😂 Comedian"
  let rep := repliesOf rows
  let lightningO : Option String :=
    if rep = [] then none
    else idxmaxBy (fun a b => Frac.blt b a)
      (groupbyMean ((rep.filter fun p => topA.contains (cleanAuthor p.1)).map fun p =>
        (cleanAuthor p.1, p.2)))
  let ach4 :=
    match lightningO with
    | none => ach3
    | some n => addBadge ach3 n "⚡ Lightning"
  match valueCounts (rows.map cleanAuthor) with
  | [] => none
  | (cb, _) :: _ =>
    let ach5 := addBadge ach4 cb "💬 Chatterbox"
    let ach6 :=
      match idxmaxBy Frac.blt (groupbyMean
          ((rows.filter fun r => topA.contains (cleanAuthor r)).map fun r =>
            (cleanAuthor r, Frac.ofInt (msgLen r)))) with
      | none => ach5
      | some n => addBadge ach5 n "👨‍🏫 Professor"
    if rep ≠ [] ∧ lightningO = none then none
    else some { achievements := ach6, chatterbox := cb, lightningOpt := lightningO }

structure WordFreqResult where
  data : List (String × Nat)
  deriving DecidableEq

def STOPWORDS : List String :=
  ["media", "omitted", "image", "video", "sticker", "message", "deleted", "null",
   "the", "and", "is", "a", "of", "to"]

/-- `re.findall(r'\b\w{3,}\b', text)`: maximal word-character runs of
length ≥ 3. -/
def wordRunsF : Nat → List Char → List String
  | 0, _ => []
  | _, [] => []
  | fuel + 1, c :: t =>
    if isWordC c then
      let run := c :: t.takeWhile isWordC
      let rest := t.dropWhile isWordC
      if run.length ≥ 3 then (⟨run⟩ : String) :: wordRunsF fuel rest else wordRunsF fuel rest
    else wordRunsF fuel t

def wordRuns (l : List Char) : List String := wordRunsF (l.length + 1) l

/-- `analyze_word_frequency` (lines 703–731); its insight is a constant
string. -/
def analyze_word_frequency (limit : Nat) (rows : List Row) : WordFreqResult :=
  let allText := pyLower (pyJoin " " (rows.map (·.message)))
  let ws := (wordRuns allText.data).filter fun w => ¬ STOPWORDS.contains w
  { data := (valueCounts ws).take limit }

/-- `compare_user_to_group` result (claim-relevant numeric fields; `none`
inside an entry models a `NaN` produced by `mean() or 0` on an
all-`NaN`/empty selection). -/
structure CompareResult where
  user_name : String
  user_msgs : Nat
  group_avg_msgs : Frac
  user_avg_len : Frac
  group_avg_len : Frac
  user_response : Option Frac
  group_response : Option Frac
  user_sentiment : Frac
  group_sentiment : Frac
  user_emojis : Nat
  group_emojis : Frac
  deriving DecidableEq

/-- `compare_user_to_group` (lines 631–701): `none` is the designated
"user not found" result. -/
def compare_user_to_group (gs : String → Frac) (ed : Char → Bool) (user_name : String)
    (rows : List Row) : Option CompareResult :=
  let cu := clean_name user_name
  let userRows := rows.filter fun r => cleanAuthor r == cu
  if userRows = [] then none
  else
    let numAuthors := (firstOccur (rows.map (·.author))).length
    let rep := repliesOf rows
    let userRep := rep.filter fun p => cleanAuthor p.1 == cu
    some
      { user_name := cu
        user_msgs := userRows.length
        group_avg_msgs := round1 (Frac.norm rows.length numAuthors)
        user_avg_len := round1 (Frac.mean (userRows.map fun r => Frac.ofInt (msgLen r)))
        group_avg_len := round1 (Frac.mean (rows.map fun r => Frac.ofInt (msgLen r)))
        user_response :=
          (if rep = [] then some 0 else fmean (userRep.map Prod.snd)).map round1
        group_response :=
          (if rep = [] then some 0 else fmean (rep.map Prod.snd)).map round1
        user_sentiment := round1 ((Frac.mean (userRows.map fun r => gs r.message)).mulInt 100)
        group_sentiment := round1 ((Frac.mean (rows.map fun r => gs r.message)).mulInt 100)
        user_emojis := ((userRows.map fun r => extract_emojis ed r.message).flatten).length
        group_emojis :=
          round1 (Frac.norm ((rows.map fun r => extract_emojis ed r.message).flatten).length
            numAuthors) }

/-! ## Analyzer object state (for frame-effect claims)

`ChatAnalyzer.__init__` copies the parsed frame and adds the derived
columns `CleanAuthor`, `Hour`, `Day`, `msg_length` (all functions of the
row, embedded above as `cleanAuthor`, `hourOf`, `dayOf`, `msgLen`).  The
observable shared state of the object is the row list plus the set of
columns present on `self.df`.  Each metric wrapper returns its result
together with the state after the call: metrics that start with
`df = self.df.copy()` (or only read) leave the state unchanged, whereas
`calculate_achievements` writes `df['emojis']`, `df['emoji_count']` and
`df['emoji_ratio']` through `df = self.df` — no copy — so those columns are
added to the shared frame. -/

structure AnalyzerState where
  rows : List Row
  extraCols : List String
  deriving DecidableEq

/-- State of a freshly constructed `ChatAnalyzer` (no columns beyond the
constructor's). -/
def initAnalyzer (rows : List Row) : AnalyzerState := ⟨rows, []⟩

/-- Column assignment: `df[c] = ...` creates `c` or overwrites it. -/
def addCol (cols : List String) (c : String) : List String :=
  if c ∈ cols then cols else cols ++ [c]

/-- `get_summary` reads `self.df` only. -/
def runGetSummary (s : AnalyzerState) : Option SummaryResult × AnalyzerState :=
  (get_summary s.rows, s)

/-- `analyze_volume` reads `self.df` only. -/
def runAnalyzeVolume (limit : Nat) (s : AnalyzerState) : VolumeResult × AnalyzerState :=
  (analyze_volume limit s.rows, s)

/-- `analyze_sentiment` works on `df = self.df.copy()`. -/
def runAnalyzeSentiment (gs : String → Frac) (limit : Nat) (s : AnalyzerState) :
    SentimentResult × AnalyzerState :=
  (analyze_sentiment gs limit s.rows, s)

/-- `analyze_response_time` works on `df = self.df.sort_values(...).copy()`. -/
def runAnalyzeResponseTime (limit : Nat) (s : AnalyzerState) : RespResult × AnalyzerState :=
  (analyze_response_time limit s.rows, s)

/-- `analyze_hourly_activity` reads `self.df` only. -/
def runAnalyzeHourly (s : AnalyzerState) : HourlyResult × AnalyzerState :=
  (analyze_hourly_activity s.rows, s)

/-- `analyze_weekly_activity` reads `self.df` only. -/
def runAnalyzeWeekly (s : AnalyzerState) : WeeklyResult × AnalyzerState :=
  (analyze_weekly_activity s.rows, s)

/-- `analyze_emojis` works on `df = self.df.copy()`. -/
def runAnalyzeEmojis (ed : Char → Bool) (limit : Nat) (s : AnalyzerState) :
    EmojiResult × AnalyzerState :=
  (analyze_emojis ed limit s.rows, s)

/-- `analyze_message_length` reads `self.df` only. -/
def runAnalyzeMessageLength (limit : Nat) (s : AnalyzerState) :
    Option MsgLenResult × AnalyzerState :=
  (analyze_message_length limit s.rows, s)

/-- `analyze_links` works on `df = self.df.copy()`. -/
def runAnalyzeLinks (limit : Nat) (s : AnalyzerState) : LinksResult × AnalyzerState :=
  (analyze_links limit s.rows, s)

/-- `get_leaderboard` reads `self.df` only. -/
def runGetLeaderboard (limit : Nat) (s : AnalyzerState) : LeaderboardResult × AnalyzerState :=
  (get_leaderboard limit s.rows, s)

/-- `analyze_conversation_roles` works on `df = self.df.sort_values(...).copy()`. -/
def runAnalyzeConversationRoles (s : AnalyzerState) : RolesResult × AnalyzerState :=
  (analyze_conversation_roles s.rows, s)

/-- `detect_monologues` works on `df = self.df.sort_values(...).reset_index(...)`
(a fresh frame). -/
def runDetectMonologues (minc : Nat) (s : AnalyzerState) : MonoResult × AnalyzerState :=
  (detect_monologues minc s.rows, s)

/-- `analyze_word_frequency` reads `self.df` only. -/
def runAnalyzeWordFrequency (limit : Nat) (s : AnalyzerState) :
    WordFreqResult × AnalyzerState :=
  (analyze_word_frequency limit s.rows, s)

/-- `calculate_achievements` sets `df = self.df` *without a copy* (line 574)
and then assigns `df['emojis']`, `df['emoji_count']`, `df['emoji_ratio']`
(lines 590–592): the three columns land on the shared frame, before any
raise path is reached. -/
def runCalculateAchievements (ed : Char → Bool) (s : AnalyzerState) :
    Option AchResult × AnalyzerState :=
  (calculate_achievements ed s.rows,
    { s with
      extraCols := addCol (addCol (addCol s.extraCols "emojis") "emoji_count") "emoji_ratio" })

/-- `compare_user_to_group` works on `df_sorted = self.df.sort_values(...)`
(a fresh frame). -/
def runCompareUserToGroup (gs : String → Frac) (ed : Char → Bool) (user_name : String)
    (s : AnalyzerState) : Option CompareResult × AnalyzerState :=
  (compare_user_to_group gs ed user_name s.rows, s)

/-! ## Spec-side definition for claim C4

Claim C4 describes a three-stage strategy with a *"fewer than half"*
retry boundary and a per-row permissive third stage.  The following
definitions follow the claim's words (not the source) so that the claim can
be compared against the code's `datetimeColumn`. -/

/-- Datetime strategy as claim C4 states it: keep the day-first column
unless *fewer than half* the rows parsed (`2 * parsed < n`); then the
month-first column if it parses a majority; otherwise per-row permissive
parsing that accepts either order. -/
def claimDatetimeColumn {α : Type} (rp : Bool → α → Option DateTimeVal) (rows : List α) :
    List (Option DateTimeVal) :=
  let c1 := rows.map (rp true)
  if 2 * c1.countP Option.isSome ≥ rows.length then c1
  else
    let c2 := rows.map (rp false)
    if 2 * c2.countP Option.isSome > rows.length then c2
    else rows.map fun r => (rp true r).or (rp false r)

def claimAttachDatetime {α β : Type} (mk : α → DateTimeVal → β)
    (rp : Bool → α → Option DateTimeVal) (rows : List α) : List β :=
  (rows.zip (claimDatetimeColumn rp rows)).filterMap fun p => p.2.map (mk p.1)

/-- `parse_chat_content` with the datetime stage replaced by claim C4's
stated strategy. -/
def claimStatedParse (content : String) : List Row :=
  let lines := pySplitlines content
  if lines = [] then []
  else
    let recs := parseMessages (matchPattern (detect_best_pattern lines)) lines
    if recs = [] then [] else claimAttachDatetime mkRow rowParse recs

/-! ## Concrete inputs used by the claims -/

/-- A store row on 2024-01-01 at the given hour/minute (helper for concrete
stores fed directly to the analyzer). -/
def mkTestRow (a msg : String) (h mi : Nat) : Row :=
  ⟨"01/01/2024", "09:00", a, msg, ⟨2024, 1, 1, h, mi, 0⟩⟩

/-- Store whose raw authors `"Alice"` and `"Alice "` differ only by
whitespace (both clean to `"Alice"`), message sequence
Alice, Alice␠, Alice one minute apart. -/
def stAliceMixed : List Row :=
  [mkTestRow "Alice" "a" 9 0, mkTestRow "Alice " "b" 9 1, mkTestRow "Alice" "c" 9 2]

/-- The same three messages all under the single raw author `"Alice"`. -/
def stAliceRaw : List Row :=
  [mkTestRow "Alice" "a" 9 0, mkTestRow "Alice" "b" 9 1, mkTestRow "Alice" "c" 9 2]

/-- Names agreeing on their first 15 cleaned characters, one of cleaned
length 15 and one of cleaned length 16. -/
def nameA : String := "aaaaaaaaaaaaaaa"

def nameB : String := "aaaaaaaaaaaaaaab"

def stTruncPair : List Row := [mkTestRow nameA "x" 9 0, mkTestRow nameB "y" 9 1]

/-- Claim C3's counterexample transcript: 3 lines of grammar family 1, 97
junk lines, 101 lines of grammar family 3 — family 3 matches more than half
of the transcript's lines, but none of the sampled first 100. -/
def exC3lines : List String :=
  List.replicate 3 "[01/02/2023, 10:00:00] A: x" ++ List.replicate 97 "zzz"
    ++ List.replicate 101 "01/02/2023, 10:00 - A: x"

/-- Claim C4's counterexample transcript: one row parseable under either
date order (differently) and one row with an impossible date, so exactly
half the rows parse under the day-first assumption. -/
def exC4text : String := "[01/02/2023, 10:00:00] A: hi\n[45/45/2023, 10:00:00] B: yo"

/-- Claim C2's counterexample transcript: the grammar matches the first
line with an *empty* captured author. -/
def exC2text : String := "[01/02/2023, 10:00:00] : Hello\nworld"

/-- Claim C2's multi-line reconstruction example. -/
def exC2good : String := "[01/02/2023, 10:00:00] Alice: Hello\nworld"

/-- Claim C5's three-message scenario transcript. -/
def exC5text : String :=
  "[01/01/2024, 09:00:00] A: hi\n[01/01/2024, 09:05:00] B: hey\n[01/01/2024, 09:06:00] B: you there?"

/-- Maximal count over a candidate list (for the `detect_best_pattern`
characterization). -/
def listMaxCnt {α : Type} (cnt : α → Nat) (l : List α) : Nat :=
  l.foldr (fun x m => max (cnt x) m) 0

/-! ## Helper lemmas -/

theorem listContainsSub_iff (n h : List Char) :
    listContainsSub n h = true ↔ ∃ u v, h = u ++ n ++ v := by
  induction h with
  | nil =>
    simp only [listContainsSub, decide_eq_true_eq]
    constructor
    · rintro rfl; exact ⟨[], [], rfl⟩
    · rintro ⟨u, v, huv⟩
      rcases List.append_eq_nil.mp (huv.symm) with ⟨h1, h2⟩
      exact (List.append_eq_nil.mp h1).2
  | cons c t ih =>
    simp only [listContainsSub, Bool.or_eq_true, decide_eq_true_eq, ih]
    constructor
    · rintro (htake | ⟨u, v, rfl⟩)
      · exact ⟨[], (c :: t).drop n.length, by
          conv_lhs => rw [← List.take_append_drop n.length (c :: t)]
          rw [htake]
          rfl⟩
      · exact ⟨c :: u, v, rfl⟩
    · rintro ⟨u, v, huv⟩
      match u, huv with
      | [], huv =>
        left
        rw [huv]
        simp [List.take_left n v]
      | cu :: u, huv =>
        right
        rw [List.cons_append, List.cons_append] at huv
        exact ⟨u, v, (List.cons.injEq .. ▸ huv).2⟩

theorem stableInsert_perm {α : Type} (le : α → α → Bool) (x : α) (l : List α) :
    (stableInsert le x l).Perm (x :: l) := by
  induction l with
  | nil => simp [stableInsert]
  | cons y ys ih =>
    by_cases h : le y x
    · simp only [stableInsert, if_pos h]
      exact (ih.cons y).trans (List.Perm.swap x y ys)
    · simp [stableInsert, if_neg h]

theorem stableSort_perm {α : Type} (le : α → α → Bool) (l : List α) :
    (stableSort le l).Perm l := by
  suffices h : ∀ l acc : List α,
      (l.foldl (fun acc x => stableInsert le x acc) acc).Perm (l ++ acc) by
    simpa [stableSort] using h l []
  intro l
  induction l with
  | nil => intro acc; simp
  | cons y ys ih =>
    intro acc
    simp only [List.foldl_cons]
    refine ((ih _).trans ?_).trans List.perm_middle
    exact (List.perm_append_left_iff ys).mpr (stableInsert_perm le y acc)

theorem mem_stableSort {α : Type} (le : α → α → Bool) (l : List α) (a : α) :
    a ∈ stableSort le l ↔ a ∈ l :=
  (stableSort_perm le l).mem_iff

theorem firstOccur_aux_mem {α : Type} [DecidableEq α] (l : List α) (acc : List α) (a : α) :
    a ∈ l.foldl (fun acc x => if x ∈ acc then acc else acc ++ [x]) acc ↔ a ∈ acc ∨ a ∈ l := by
  induction l generalizing acc with
  | nil => simp
  | cons y ys ih =>
    by_cases h : y ∈ acc
    · simp only [List.foldl_cons, if_pos h, ih, List.mem_cons]
      constructor
      · rintro (ha | ha)
        · exact Or.inl ha
        · exact Or.inr (Or.inr ha)
      · rintro (ha | rfl | ha)
        · exact Or.inl ha
        · exact Or.inl h
        · exact Or.inr ha
    · simp only [List.foldl_cons, if_neg h, ih, List.mem_append, List.mem_cons,
        List.mem_singleton]
      tauto

theorem firstOccur_mem {α : Type} [DecidableEq α] (l : List α) (a : α) :
    a ∈ firstOccur l ↔ a ∈ l := by
  simpa using firstOccur_aux_mem l [] a

theorem firstOccur_aux_nodup {α : Type} [DecidableEq α] (l : List α) (acc : List α)
    (hacc : acc.Nodup) :
    (l.foldl (fun acc x => if x ∈ acc then acc else acc ++ [x]) acc).Nodup := by
  induction l generalizing acc with
  | nil => simpa
  | cons y ys ih =>
    simp only [List.foldl_cons]
    by_cases h : y ∈ acc
    · rw [if_pos h]; exact ih acc hacc
    · rw [if_neg h]
      refine ih _ ?_
      exact List.Nodup.append hacc (List.nodup_singleton y)
        (by simpa [List.disjoint_singleton] using h)

theorem firstOccur_nodup {α : Type} [DecidableEq α] (l : List α) : (firstOccur l).Nodup :=
  firstOccur_aux_nodup l [] List.nodup_nil

theorem firstOccur_ne_nil {α : Type} [DecidableEq α] (l : List α) (h : l ≠ []) :
    firstOccur l ≠ [] := by
  match l, h with
  | x :: t, _ =>
    intro hcon
    have := (firstOccur_mem (x :: t) x).mpr (List.mem_cons_self x t)
    simp [hcon] at this

theorem valueCounts_keys_nodup {α : Type} [DecidableEq α] (l : List α) :
    ((valueCounts l).map Prod.fst).Nodup := by
  have hperm : ((valueCounts l).map Prod.fst).Perm
      (((firstOccur l).map fun k => (k, l.count k)).map Prod.fst) :=
    (stableSort_perm _ _).map Prod.fst
  refine hperm.nodup_iff.mpr ?_
  rw [List.map_map]
  have hid : (Prod.fst ∘ fun k => (k, l.count k)) = id := rfl
  rw [hid, List.map_id]
  exact firstOccur_nodup l

theorem mem_valueCounts {α : Type} [DecidableEq α] (l : List α) (p : α × Nat) :
    p ∈ valueCounts l ↔ p.1 ∈ l ∧ p.2 = l.count p.1 := by
  rw [show valueCounts l
      = stableSort (fun a b => b.2 ≤ a.2) ((firstOccur l).map fun k => (k, l.count k)) from rfl,
    (stableSort_perm _ _).mem_iff, List.mem_map]
  constructor
  · rintro ⟨k, hk, rfl⟩
    exact ⟨(firstOccur_mem l k).mp hk, rfl⟩
  · rintro ⟨hmem, hcount⟩
    exact ⟨p.1, (firstOccur_mem l p.1).mpr hmem, by cases p; simp_all⟩

theorem valueCounts_ne_nil {α : Type} [DecidableEq α] (l : List α) (h : l ≠ []) :
    valueCounts l ≠ [] := by
  intro hcon
  have hlen := (stableSort_perm (fun a b => b.2 ≤ a.2)
    ((firstOccur l).map fun k => (k, l.count k))).length_eq
  rw [show stableSort (fun a b => b.2 ≤ a.2) ((firstOccur l).map fun k => (k, l.count k))
      = valueCounts l from rfl, hcon] at hlen
  simp only [List.length_nil, List.length_map] at hlen
  exact firstOccur_ne_nil l h (List.length_eq_zero.mp hlen.symm)

theorem countP_disjoint {α : Type} (p q : α → Bool) (l : List α)
    (h : ∀ x ∈ l, p x = true → q x = false) :
    l.countP p + l.countP q ≤ l.length := by
  induction l with
  | nil => simp
  | cons y ys ih =>
    have hys : ∀ x ∈ ys, p x = true → q x = false := fun x hx => h x (List.mem_cons_of_mem y hx)
    have hih := ih hys
    by_cases hp : p y = true
    · have hq : q y = false := h y (List.mem_cons_self y ys) hp
      simp [List.countP_cons, hp, hq]
      omega
    · simp only [Bool.not_eq_true] at hp
      by_cases hq : q y = true
      · simp [List.countP_cons, hp, hq]; omega
      · simp only [Bool.not_eq_true] at hq
        simp [List.countP_cons, hp, hq]; omega

theorem tryDesc_some (attempt : Nat → Option Groups) (lo n : Nat) (g : Groups)
    (h : tryDesc attempt lo n = some g) : ∃ m, lo ≤ m ∧ m ≤ n ∧ attempt m = some g := by
  induction n with
  | zero =>
    simp only [tryDesc] at h
    split at h
    · exact ⟨0, by omega, le_refl 0, h⟩
    · exact absurd h (by simp)
  | succ k ih =>
    simp only [tryDesc] at h
    split at h
    · exact absurd h (by simp)
    · rename_i hlo
      cases hatt : attempt (k + 1) with
      | some g2 =>
        rw [hatt] at h
        have hgg : some g2 = some g := h
        exact ⟨k + 1, by omega, le_refl _, by rw [hatt]; exact hgg⟩
      | none =>
        rw [hatt] at h
        obtain ⟨m, h1, hm, h3⟩ := ih h
        exact ⟨m, h1, by omega, h3⟩

theorem repCls_head (f : Char → Bool) (hi : Nat) (k : List Char → RxCont) (l : List Char)
    (g : Groups) (h : repCls f 1 hi k l = some g) :
    ∃ c t, l = c :: t ∧ f c = true := by
  simp only [repCls] at h
  obtain ⟨m, h1, _, h3⟩ := tryDesc_some _ 1 hi g h
  split at h3
  · rename_i hcond
    simp only [Bool.and_eq_true, decide_eq_true_eq] at hcond
    obtain ⟨hle, hall⟩ := hcond
    cases l with
    | nil =>
      simp only [List.length_nil, Nat.le_zero] at hle
      omega
    | cons c t =>
      refine ⟨c, t, rfl, ?_⟩
      obtain ⟨m2, rfl⟩ : ∃ m2, m = m2 + 1 := ⟨m - 1, by omega⟩
      rw [List.take_succ_cons] at hall
      simp only [List.all_cons, Bool.and_eq_true] at hall
      exact hall.1
  · exact absurd h3 (by simp)

theorem chrTok_head (c : Char) (k : RxCont) (l : List Char) (g : Groups)
    (h : chrTok c k l = some g) : ∃ t, l = c :: t := by
  match l with
  | [] => simp [chrTok] at h
  | x :: xs =>
    simp only [chrTok] at h
    split at h
    · rename_i hx; exact ⟨xs, by rw [hx]⟩
    · exact absurd h (by simp)

/-- A line matching pattern 3 starts with a digit; a line matching any of
the bracketed patterns starts with `[` — so pattern 3 is disjoint from the
four others. -/
theorem pat3_disjoint (l : List Char) (g : Groups) (h : pat3 l = some g) :
    pat1 l = none ∧ pat2 l = none ∧ pat4 l = none ∧ pat5 l = none := by
  unfold pat3 dateGrp at h
  obtain ⟨c, t, rfl, hdig⟩ := repCls_head isDigitC 2 _ l g h
  have hnotbr : c ≠ '[' := by
    intro hcon
    rw [hcon] at hdig
    simp [isDigitC, Char.isDigit] at hdig
  refine ⟨?_, ?_, ?_, ?_⟩
  · cases hm : pat1 (c :: t) with
    | none => rfl
    | some g2 =>
      exfalso
      unfold pat1 at hm
      obtain ⟨t2, ht2⟩ := chrTok_head '[' _ _ g2 hm
      injection ht2 with hc _
      exact hnotbr hc
  · cases hm : pat2 (c :: t) with
    | none => rfl
    | some g2 =>
      exfalso
      unfold pat2 at hm
      obtain ⟨t2, ht2⟩ := chrTok_head '[' _ _ g2 hm
      injection ht2 with hc _
      exact hnotbr hc
  · cases hm : pat4 (c :: t) with
    | none => rfl
    | some g2 =>
      exfalso
      unfold pat4 at hm
      obtain ⟨t2, ht2⟩ := chrTok_head '[' _ _ g2 hm
      injection ht2 with hc _
      exact hnotbr hc
  · cases hm : pat5 (c :: t) with
    | none => rfl
    | some g2 =>
      exfalso
      unfold pat5 at hm
      obtain ⟨t2, ht2⟩ := chrTok_head '[' _ _ g2 hm
      injection ht2 with hc _
      exact hnotbr hc

theorem listMaxCnt_le {α : Type} (cnt : α → Nat) (l : List α) (x : α) (hx : x ∈ l) :
    cnt x ≤ listMaxCnt cnt l := by
  induction l with
  | nil => cases hx
  | cons y ys ih =>
    rcases List.mem_cons.mp hx with rfl | hmem
    · simp [listMaxCnt]
    · simp only [listMaxCnt, List.foldr_cons]
      exact le_trans (ih hmem) (le_max_right _ _)

theorem detectLoop_const {α : Type} (cnt : α → Nat) (best : α) (bc : Nat) (l : List α)
    (h : ∀ x ∈ l, cnt x ≤ bc) : detectLoop cnt best bc l = best := by
  induction l generalizing best bc with
  | nil => rfl
  | cons y ys ih =>
    have hy : ¬ cnt y > bc := by
      have := h y (List.mem_cons_self y ys)
      omega
    simp only [detectLoop, if_neg hy]
    exact ih best bc fun x hx => h x (List.mem_cons_of_mem y hx)

theorem detectLoop_max {α : Type} (cnt : α → Nat) (l : List α) :
    ∀ best bc, bc < listMaxCnt cnt l →
      l.find? (fun x => cnt x == listMaxCnt cnt l) = some (detectLoop cnt best bc l) := by
  induction l with
  | nil => intro best bc h; simp [listMaxCnt] at h
  | cons y ys ih =>
    intro best bc h
    have hM : listMaxCnt cnt (y :: ys) = max (cnt y) (listMaxCnt cnt ys) := rfl
    by_cases hy : listMaxCnt cnt ys ≤ cnt y
    · have hEq : listMaxCnt cnt (y :: ys) = cnt y := by rw [hM]; omega
      have hgt : cnt y > bc := by omega
      rw [List.find?_cons_of_pos _ (by simp [hEq])]
      simp only [detectLoop, if_pos hgt]
      rw [detectLoop_const cnt y (cnt y) ys fun x hx => le_trans (listMaxCnt_le cnt ys x hx) hy]
    · have hlt : cnt y < listMaxCnt cnt ys := by omega
      have hEq : listMaxCnt cnt (y :: ys) = listMaxCnt cnt ys := by rw [hM]; omega
      rw [List.find?_cons_of_neg _ (by simp [hEq]; omega)]
      by_cases hgt : cnt y > bc
      · simp only [detectLoop, if_pos hgt]
        rw [hEq]
        exact ih y (cnt y) hlt
      · simp only [detectLoop, if_neg hgt]
        rw [hEq]
        exact ih best bc (by omega)

theorem mem_zip_iff {α β : Type} (l1 : List α) (l2 : List β) (a : α) (b : β) :
    (a, b) ∈ l1.zip l2 ↔ ∃ i : Nat, l1[i]? = some a ∧ l2[i]? = some b := by
  induction l1 generalizing l2 with
  | nil => simp
  | cons x xs ih =>
    cases l2 with
    | nil => simp
    | cons y ys =>
      simp only [List.zip_cons_cons, List.mem_cons, ih, Prod.mk.injEq]
      constructor
      · rintro (⟨rfl, rfl⟩ | ⟨i, h1, h2⟩)
        · exact ⟨0, by simp, by simp⟩
        · exact ⟨i + 1, by simpa using h1, by simpa using h2⟩
      · rintro ⟨i, h1, h2⟩
        cases i with
        | zero =>
          left
          simp only [List.getElem?_cons_zero, Option.some.injEq] at h1 h2
          exact ⟨h1.symm, h2.symm⟩
        | succ j =>
          right
          exact ⟨j, by simpa using h1, by simpa using h2⟩

theorem mem_withPrev_some (l : List Row) (r prev : Row) :
    (r, some prev) ∈ withPrev l ↔ ∃ i : Nat, l[i]? = some prev ∧ l[i + 1]? = some r := by
  rw [withPrev, mem_zip_iff]
  constructor
  · rintro ⟨i, h1, h2⟩
    cases i with
    | zero =>
      rw [List.getElem?_cons_zero] at h2
      simp at h2
    | succ j =>
      refine ⟨j, ?_, h1⟩
      have h3 : (l.map some)[j]? = some (some prev) := by simpa using h2
      rw [List.getElem?_map] at h3
      rcases Option.map_eq_some'.mp h3 with ⟨a, ha, hfa⟩
      injection hfa with hfa2
      rw [ha, hfa2]
  · rintro ⟨j, h1, h2⟩
    exact ⟨j + 1, h2, by simpa using congrArg (Option.map some) h1⟩

theorem mem_withPrev_fst (l : List Row) (p : Row × Option Row)
    (h : p ∈ withPrev l) : p.1 ∈ l := by
  have := List.of_mem_zip h
  exact this.1

/-- `repliesOf` membership characterization: exactly the messages whose
sorted-order predecessor exists, has a different (raw) author, and lies
strictly less than 720 minutes and strictly more than 0 minutes before. -/
theorem mem_repliesOf (rows : List Row) (r : Row) (d : Frac) :
    (r, d) ∈ repliesOf rows ↔
      ∃ (i : Nat) (prev : Row),
        (sortByDT rows)[i]? = some prev ∧ (sortByDT rows)[i + 1]? = some r ∧
        d = timeDiffMin prev r ∧ r.author ≠ prev.author ∧
        Frac.blt d 720 = true ∧ Frac.blt 0 d = true := by
  rw [repliesOf, List.mem_filterMap]
  constructor
  · rintro ⟨⟨a, op⟩, hmem, hf⟩
    cases op with
    | none => simp at hf
    | some prev =>
      simp only at hf
      split at hf
      · rename_i hcond
        obtain ⟨i, h1, h2⟩ := (mem_withPrev_some _ _ _).mp hmem
        rcases Option.some.injEq .. ▸ hf with ⟨rfl, rfl⟩
        exact ⟨i, prev, h1, h2, rfl, hcond.1, hcond.2.1, hcond.2.2⟩
      · simp at hf
  · rintro ⟨i, prev, h1, h2, rfl, hauth, hlt, hgt⟩
    refine ⟨(r, some prev), (mem_withPrev_some _ _ _).mpr ⟨i, h1, h2⟩, ?_⟩
    simp only
    rw [if_pos ⟨hauth, hlt, hgt⟩]

/-- The dropna-zip of the datetime stage is a per-row `filterMap` under the
single strategy the loop chose. -/
theorem zip_map_filterMap {α β : Type} (rows : List α) (f : α → Option DateTimeVal)
    (mk : α → DateTimeVal → β) :
    (rows.zip (rows.map f)).filterMap (fun p => p.2.map (mk p.1))
      = rows.filterMap fun r => (f r).map (mk r) := by
  induction rows with
  | nil => rfl
  | cons x xs ih => simp only [List.map_cons, List.zip_cons_cons, List.filterMap_cons, ih]

theorem idxmaxRow_isSome (rows : List Row) (h : rows ≠ []) : (idxmaxRow rows).isSome := by
  have haux : ∀ (l : List Row) (r : Row),
      (l.foldl
        (fun acc r =>
          match acc with
          | none => some r
          | some q => if msgLen q < msgLen r then some r else acc)
        (some r)).isSome := by
    intro l
    induction l with
    | nil => intro r; rfl
    | cons x xs ih =>
      intro r
      simp only [List.foldl_cons]
      by_cases hc : msgLen r < msgLen x
      · simpa [hc] using ih x
      · simpa [hc] using ih r
  match rows, h with
  | r :: rest, _ => simpa [idxmaxRow] using haux rest r

theorem groupbyMean_keys_nodup (pairs : List (String × Frac)) :
    ((groupbyMean pairs).map Prod.fst).Nodup := by
  rw [groupbyMean, List.map_map]
  have hid : (Prod.fst ∘ fun k =>
      (k, Frac.mean (pairs.filterMap fun p => if p.1 = k then some p.2 else none))) = id := rfl
  rw [hid, List.map_id]
  exact ((stableSort_perm _ _).nodup_iff).mpr (firstOccur_nodup _)

/-! ## The claims -/

/-- Claim C10: media-placeholder classification is substring-based — a
message is a media placeholder iff its lowercased body contains
`"omitted"`, `"deleted"` or `"<media"` anywhere — and the sentiment metric
scores such a message (e.g. the ordinary message "I deleted the file") as a
fixed 0 contribution instead of its lexicon polarity: the result does not
depend on the polarity function's values on media-classified messages, and
with a lexicon that scores everything 1 the deleted-file message still
contributes 0. -/
theorem claim_C10 :
    (∀ m : String, is_media_message m = true ↔
      ((∃ u v, (pyLower m).data = u ++ "omitted".data ++ v) ∨
       (∃ u v, (pyLower m).data = u ++ "deleted".data ++ v) ∨
       (∃ u v, (pyLower m).data = u ++ "<media".data ++ v))) ∧
    is_media_message "I deleted the file" = true ∧
    (∀ (gs gs' : String → Frac) (limit : Nat) (rows : List Row),
      (∀ msg, is_media_message msg = false → gs msg = gs' msg) →
      analyze_sentiment gs limit rows = analyze_sentiment gs' limit rows) ∧
    (analyze_sentiment (fun _ => 1) 10
        [⟨"01/02/2023", "10:00", "A", "I deleted the file", ⟨2023, 2, 1, 10, 0, 0⟩⟩]).data
      = [("A", 0, false)] := by
  refine ⟨?_, by decide, ?_, by decide⟩
  · intro m
    simp only [is_media_message, strContains, Bool.or_eq_true, listContainsSub_iff]
    exact or_assoc
  · intro gs gs' limit rows h
    have hpt : ∀ r : Row, (if is_media_message r.message then (0 : Frac) else gs r.message)
        = if is_media_message r.message then (0 : Frac) else gs' r.message := by
      intro r
      by_cases hm : is_media_message r.message
      · simp [hm]
      · simp only [Bool.not_eq_true] at hm
        simp [hm, h r.message hm]
    have hf : (fun r : Row => if is_media_message r.message then (0 : Frac) else gs r.message)
        = fun r : Row => if is_media_message r.message then (0 : Frac) else gs' r.message :=
      funext hpt
    have hf2 : (fun r : Row =>
          (cleanAuthor r, if is_media_message r.message then (0 : Frac) else gs r.message))
        = fun r : Row =>
          (cleanAuthor r, if is_media_message r.message then (0 : Frac) else gs' r.message) := by
      funext r
      rw [hpt r]
    simp only [analyze_sentiment, hf, hf2]

theorem mem_pyStripL (l : List Char) (c : Char) (h : c ∈ pyStripL l) : c ∈ l := by
  simp only [pyStripL, List.mem_reverse] at h
  exact (List.dropWhile_sublist _).mem ((List.mem_reverse).mp ((List.dropWhile_sublist _).mem h))

theorem cleanNameCore_charset (name : String) (c : Char) (h : c ∈ cleanNameCore name.data) :
    (isWordC c || isSpaceC c || c = '-') = true := by
  have h2 := mem_pyStripL _ c h
  exact (List.mem_filter.mp h2).2

theorem clean_name_data (n : String) :
    (clean_name n).data =
      if (cleanNameCore n.data).length > 15 then (cleanNameCore n.data).take 15 ++ "..".data
      else if cleanNameCore n.data = [] then "Unknown".data
      else cleanNameCore n.data := by
  simp only [clean_name]
  by_cases h1 : (cleanNameCore n.data).length > 15
  · simp [h1]
  · simp only [if_neg h1]
    by_cases h2 : cleanNameCore n.data = []
    · simp [h2]
    · simp [h2]

/-- When `clean_name` merges two raw names: equal cleaned cores, or both
cores longer than 15 agreeing on their first 15 characters, or one core
empty while the other is literally `Unknown`. -/
theorem clean_name_eq_iff (n1 n2 : String) :
    clean_name n1 = clean_name n2 ↔
      (cleanNameCore n1.data = cleanNameCore n2.data ∨
       ((cleanNameCore n1.data).length > 15 ∧ (cleanNameCore n2.data).length > 15 ∧
         (cleanNameCore n1.data).take 15 = (cleanNameCore n2.data).take 15) ∨
       (cleanNameCore n1.data = [] ∧ cleanNameCore n2.data = "Unknown".data) ∨
       (cleanNameCore n2.data = [] ∧ cleanNameCore n1.data = "Unknown".data)) := by
  have hdata : clean_name n1 = clean_name n2 ↔ (clean_name n1).data = (clean_name n2).data := by
    constructor
    · intro h; rw [h]
    · intro h; exact String.ext h
  rw [hdata, clean_name_data, clean_name_data]
  set c1 := cleanNameCore n1.data with hc1
  set c2 := cleanNameCore n2.data with hc2
  by_cases h1 : c1.length > 15 <;> by_cases h2 : c2.length > 15
  · rw [if_pos h1, if_pos h2]
    constructor
    · intro he
      refine Or.inr (Or.inl ⟨h1, h2, ?_⟩)
      have hl1 : (c1.take 15).length = 15 := by
        rw [List.length_take]; omega
      have hl2 : (c2.take 15).length = 15 := by
        rw [List.length_take]; omega
      have e1 : ((c1.take 15) ++ "..".data).take 15 = c1.take 15 := List.take_left' hl1
      have e2 : ((c2.take 15) ++ "..".data).take 15 = c2.take 15 := List.take_left' hl2
      rw [← e1, ← e2, he]
    · rintro (hc | ⟨_, _, ht⟩ | ⟨he, _⟩ | ⟨he, _⟩)
      · rw [hc]
      · rw [ht]
      · rw [he] at h1; simp at h1
      · rw [he] at h2; simp at h2
  · rw [if_pos h1, if_neg h2]
    constructor
    · intro he
      exfalso
      have hlen := congrArg List.length he
      rw [List.length_append, List.length_take] at hlen
      by_cases hc2 : c2 = []
      · rw [if_pos hc2] at hlen
        simp at hlen
        omega
      · rw [if_neg hc2] at hlen
        simp at hlen
        omega
    · rintro (hc | ⟨_, hl2, _⟩ | ⟨he, _⟩ | ⟨_, hu⟩)
      · rw [hc] at h1; exact absurd h1 h2
      · exact absurd hl2 h2
      · rw [he] at h1; simp at h1
      · rw [hu] at h1; simp at h1
  · rw [if_neg h1, if_pos h2]
    constructor
    · intro he
      exfalso
      have hlen := congrArg List.length he
      rw [List.length_append, List.length_take] at hlen
      by_cases hc1 : c1 = []
      · rw [if_pos hc1] at hlen
        simp at hlen
        omega
      · rw [if_neg hc1] at hlen
        simp at hlen
        omega
    · rintro (hc | ⟨hl1, _, _⟩ | ⟨_, hu⟩ | ⟨he, _⟩)
      · rw [hc] at h1; exact absurd h2 h1
      · exact absurd hl1 h1
      · rw [hu] at h2; simp at h2
      · rw [he] at h2; simp at h2
  · rw [if_neg h1, if_neg h2]
    by_cases e1 : c1 = [] <;> by_cases e2 : c2 = []
    · rw [if_pos e1, if_pos e2]
      simp [e1, e2]
    · rw [if_pos e1, if_neg e2]
      constructor
      · intro he
        exact Or.inr (Or.inr (Or.inl ⟨e1, he.symm⟩))
      · rintro (hc | ⟨hl1, _, _⟩ | ⟨_, hu⟩ | ⟨he, _⟩)
        · rw [e1] at hc; exact absurd hc.symm e2
        · exact absurd hl1 h1
        · rw [hu]
        · exact absurd he e2
    · rw [if_neg e1, if_pos e2]
      constructor
      · intro he
        exact Or.inr (Or.inr (Or.inr ⟨e2, he⟩))
      · rintro (hc | ⟨hl1, _, _⟩ | ⟨he, _⟩ | ⟨_, hu⟩)
        · rw [e2] at hc; exact absurd hc e1
        · exact absurd hl1 h1
        · exact absurd he e1
        · rw [hu]
    · rw [if_neg e1, if_neg e2]
      constructor
      · intro he; exact Or.inl he
      · rintro (hc | ⟨hl1, _, _⟩ | ⟨he, _⟩ | ⟨he, _⟩)
        · exact hc
        · exact absurd hl1 h1
        · exact absurd he e1
        · exact absurd he e2

theorem volume_buckets (limit : Nat) (rows : List Row) :
    ((analyze_volume limit rows).data.map Prod.fst).Nodup ∧
      ∀ p ∈ (analyze_volume limit rows).data, p.2 = (rows.map cleanAuthor).count p.1 := by
  have hsub : (analyze_volume limit rows).data.Sublist (valueCounts (rows.map cleanAuthor)) := by
    rw [show (analyze_volume limit rows).data
        = (valueCounts (rows.map cleanAuthor)).take limit from rfl]
    exact List.take_sublist _ _
  constructor
  · exact List.Nodup.sublist (hsub.map Prod.fst) (valueCounts_keys_nodup _)
  · intro p hp
    exact ((mem_valueCounts _ _).mp (hsub.mem hp)).2

/-- Claim C9 counterexample: the raw names `"aaaaaaaaaaaaaaa"` (15 a's) and
`"aaaaaaaaaaaaaaab"` are distinct, agree on their first 15 cleaned
characters, yet clean to different display names (`"aaaaaaaaaaaaaaa"` vs
`"aaaaaaaaaaaaaaa.."`), so a two-message store with these authors gets two
volume buckets, not the single merged bucket the claim asserts. -/
theorem claim_C9_counterexample :
    nameA ≠ nameB ∧
    (cleanNameCore nameA.data).take 15 = (cleanNameCore nameB.data).take 15 ∧
    clean_name nameA ≠ clean_name nameB ∧
    (analyze_volume 10 stTruncPair).data.length = 2 := by
  decide

/-- Claim C9, amended: `clean_name` keeps only word characters, whitespace
and hyphens (then strips outer whitespace), truncates cleaned results
longer than 15 characters to their first 15 plus `".."`, and maps an empty
cleaned result to `"Unknown"`; two raw names are merged into one display
name iff their cleaned forms are equal, or both exceed 15 characters and
agree on their first 15, or one cleans to empty while the other cleans to
exactly `"Unknown"` — in particular a cleaned form of exactly 15 characters
never merges with a longer one.  Per-author volume buckets are keyed by the
merged display name (each name appears at most once, counting all rows that
clean to it). -/
theorem claim_C9_amended :
    (∀ (name : String) (c : Char), c ∈ cleanNameCore name.data →
      (isWordC c || isSpaceC c || c = '-') = true) ∧
    (∀ name : String, (cleanNameCore name.data).length > 15 →
      clean_name name = ⟨(cleanNameCore name.data).take 15 ++ "..".data⟩) ∧
    (∀ name : String, cleanNameCore name.data = [] → clean_name name = "Unknown") ∧
    (∀ n1 n2 : String, clean_name n1 = clean_name n2 ↔
      (cleanNameCore n1.data = cleanNameCore n2.data ∨
       ((cleanNameCore n1.data).length > 15 ∧ (cleanNameCore n2.data).length > 15 ∧
         (cleanNameCore n1.data).take 15 = (cleanNameCore n2.data).take 15) ∨
       (cleanNameCore n1.data = [] ∧ cleanNameCore n2.data = "Unknown".data) ∨
       (cleanNameCore n2.data = [] ∧ cleanNameCore n1.data = "Unknown".data))) ∧
    (∀ (limit : Nat) (rows : List Row),
      ((analyze_volume limit rows).data.map Prod.fst).Nodup ∧
        ∀ p ∈ (analyze_volume limit rows).data, p.2 = (rows.map cleanAuthor).count p.1) := by
  refine ⟨cleanNameCore_charset, ?_, ?_, clean_name_eq_iff, volume_buckets⟩
  · intro name h
    simp [clean_name, h]
  · intro name h
    simp [clean_name, h]

theorem map_fst_pairmap {β : Type} (F : String × Frac → β) (l : List (String × Frac)) :
    (l.map (fun p => (p.1, F p))).map Prod.fst = l.map Prod.fst := by
  rw [List.map_map]
  rfl

theorem sorted_groupby_keys_nodup (le : (String × Frac) → (String × Frac) → Bool)
    (pairs : List (String × Frac)) :
    ((stableSort le (groupbyMean pairs)).map Prod.fst).Nodup :=
  ((stableSort_perm le _).map Prod.fst).nodup_iff.mpr (groupbyMean_keys_nodup pairs)

theorem respTime_keys_nodup (limit : Nat) (rows : List Row) :
    ((analyze_response_time limit rows).data.map Prod.fst).Nodup := by
  unfold analyze_response_time
  by_cases h : repliesOf rows = []
  · simp [h]
  · rw [if_neg h]
    simp only
    rw [map_fst_pairmap (fun p => round1 p.2)]
    exact sorted_groupby_keys_nodup _ _

theorem sentiment_keys_nodup (gs : String → Frac) (limit : Nat) (rows : List Row) :
    ((analyze_sentiment gs limit rows).data.map Prod.fst).Nodup := by
  unfold analyze_sentiment
  simp only
  rw [map_fst_pairmap (fun p => (round1 (p.2.mulInt 100), Frac.blt 0 p.2))]
  exact sorted_groupby_keys_nodup _ _

/-- Claim C8 counterexample: `calculate_achievements` is not side-effect
free — on a freshly built analyzer it adds the `emojis`, `emoji_count` and
`emoji_ratio` columns to the shared frame, so the state visible to other
metrics differs after the call. -/
theorem claim_C8_counterexample :
    (runCalculateAchievements (fun _ => false) (initAnalyzer stAliceRaw)).2
      ≠ initAnalyzer stAliceRaw := by
  decide

/-- Claim C8, amended: every metric except `calculate_achievements` leaves
the store (rows and column set) unchanged — they read `self.df` or work on
a copy — while `calculate_achievements` keeps the rows intact but writes
the three auxiliary columns `emojis`, `emoji_count`, `emoji_ratio` through
to the shared frame. -/
theorem claim_C8_amended :
    ∀ (s : AnalyzerState) (gs : String → Frac) (ed : Char → Bool) (limit minc : Nat)
      (uname : String),
      (runGetSummary s).2 = s ∧ (runAnalyzeVolume limit s).2 = s ∧
      (runAnalyzeSentiment gs limit s).2 = s ∧ (runAnalyzeResponseTime limit s).2 = s ∧
      (runAnalyzeHourly s).2 = s ∧ (runAnalyzeWeekly s).2 = s ∧
      (runAnalyzeEmojis ed limit s).2 = s ∧ (runAnalyzeMessageLength limit s).2 = s ∧
      (runAnalyzeLinks limit s).2 = s ∧ (runGetLeaderboard limit s).2 = s ∧
      (runAnalyzeConversationRoles s).2 = s ∧ (runDetectMonologues minc s).2 = s ∧
      (runAnalyzeWordFrequency limit s).2 = s ∧ (runCompareUserToGroup gs ed uname s).2 = s ∧
      (runCalculateAchievements ed s).2.rows = s.rows ∧
      (runCalculateAchievements ed s).2.extraCols
        = addCol (addCol (addCol s.extraCols "emojis") "emoji_count") "emoji_ratio" := by
  intro s gs ed limit minc uname
  exact ⟨rfl, rfl, rfl, rfl, rfl, rfl, rfl, rfl, rfl, rfl, rfl, rfl, rfl, rfl, rfl, rfl⟩

/-- `get_summary`'s top contributor comes from the head of the *raw*
author `value_counts` (line 58) — only its display name is cleaned. -/
theorem summary_top_raw (rows : List Row) :
    (get_summary rows).map (fun s => (s.top_name, s.top_count))
      = (valueCounts (rows.map (·.author))).head?.map fun p => (clean_name p.1, p.2) := by
  match rows with
  | [] => rfl
  | r :: rest =>
    cases hvc : valueCounts ((r :: rest).map (·.author)) with
    | nil => exact absurd hvc (valueCounts_ne_nil _ (by simp))
    | cons p t =>
      obtain ⟨ta, tc⟩ := p
      unfold get_summary
      rw [hvc]
      rfl

/-- Claim C7 counterexample: the raw authors `"Alice"` and `"Alice "`
clean to the same display name, yet the leaderboard buckets them
separately (two entries, both displayed `"Alice"`), the summary's top
contributor is the raw bucket of count 2 even though all three messages
clean to `"Alice"`, monologue run detection compares raw names (three
consecutive same-cleaned messages yield no run of 3), and response-time
reply detection counts the raw-name switch as a reply. -/
theorem claim_C7_counterexample :
    clean_name "Alice" = clean_name "Alice " ∧ ("Alice" : String) ≠ "Alice " ∧
    ((get_leaderboard 5 stAliceMixed).data.map fun p => p.2.1) = ["Alice", "Alice"] ∧
    (get_summary stAliceMixed).map (fun s => (s.top_name, s.top_count)) = some ("Alice", 2) ∧
    (stAliceMixed.map cleanAuthor).count "Alice" = 3 ∧
    (detect_monologues 3 stAliceMixed).data = [] ∧
    (repliesOf stAliceMixed).length = 2 := by
  decide

/-- Claim C7, amended: the groupby-based metrics (volume, sentiment,
response time) do merge whitespace/punctuation variants into one
cleaned-name bucket (their result lists hold each cleaned name at most
once); but Summary's top contributor and the Leaderboard bucket by *raw*
author name (displaying the cleaned name): the summary's top contributor
is the head of the raw-author `value_counts` — on the mixed store its
count is the raw 2, not the merged 3 — and reply detection in Response
Time and consecutive-run detection in Monologues compare *raw* author
names, so such variants are treated as different authors there. -/
theorem claim_C7_amended :
    (∀ (limit : Nat) (rows : List Row) (gs : String → Frac),
      ((analyze_volume limit rows).data.map Prod.fst).Nodup ∧
      ((analyze_response_time limit rows).data.map Prod.fst).Nodup ∧
      ((analyze_sentiment gs limit rows).data.map Prod.fst).Nodup) ∧
    (∀ (limit : Nat) (rows : List Row),
      (get_leaderboard limit rows).data
        = ((valueCounts (rows.map (·.author))).take limit).enum.map fun p =>
            (p.1 + 1, clean_name p.2.1, p.2.2, round1 (Frac.norm (p.2.2 * 100) rows.length))) ∧
    (∀ rows : List Row,
      (get_summary rows).map (fun s => (s.top_name, s.top_count))
        = (valueCounts (rows.map (·.author))).head?.map fun p => (clean_name p.1, p.2)) ∧
    (get_summary stAliceMixed).map (fun s => (s.top_name, s.top_count)) = some ("Alice", 2) ∧
    (stAliceMixed.map cleanAuthor).count "Alice" = 3 ∧
    (detect_monologues 3 stAliceRaw).data = [("Alice", 3)] ∧
    (detect_monologues 3 stAliceMixed).top_monologuer = none := by
  refine ⟨?_, fun limit rows => rfl, summary_top_raw, by decide, by decide, by decide,
    by decide⟩
  intro limit rows gs
  exact ⟨(volume_buckets limit rows).1, respTime_keys_nodup limit rows,
    sentiment_keys_nodup gs limit rows⟩

/-- Claim C5: on the timestamp-sorted store a message is a reply iff its
raw author differs from the immediately preceding message's author and the
gap is strictly between 0 and 720 minutes; a single-author store yields
the designated empty result with a null fastest responder and the
fall-back insight; and the three-message scenario A@09:00, B@09:05,
B@09:06 (parsed end-to-end from its transcript) yields exactly one
qualifying reply, B's average of 5.0 minutes, with A excluded, while
Volume counts A=1, B=2. -/
theorem claim_C5 :
    (∀ (rows : List Row) (r : Row) (d : Frac),
      (r, d) ∈ repliesOf rows ↔
        ∃ (i : Nat) (prev : Row),
          (sortByDT rows)[i]? = some prev ∧ (sortByDT rows)[i + 1]? = some r ∧
          d = timeDiffMin prev r ∧ r.author ≠ prev.author ∧
          Frac.blt d 720 = true ∧ Frac.blt 0 d = true) ∧
    (∀ (limit : Nat) (rows : List Row),
      (∀ r1 ∈ rows, ∀ r2 ∈ rows, r1.author = r2.author) →
      analyze_response_time limit rows = ⟨[], none, none, some .fallback⟩) ∧
    analyze_response_time 10 (parse_chat_content exC5text)
      = ⟨[("B", ⟨5, 1⟩)], some "B", some ⟨5, 1⟩, some (.fastest "B" ⟨5, 1⟩)⟩ ∧
    (analyze_volume 10 (parse_chat_content exC5text)).data = [("B", 2), ("A", 1)] := by
  refine ⟨mem_repliesOf, ?_, by decide, by decide⟩
  intro limit rows h
  have hrep : repliesOf rows = [] := by
    by_contra hne
    obtain ⟨⟨r, d⟩, hmem⟩ := List.exists_mem_of_ne_nil _ hne
    obtain ⟨i, prev, h1, h2, _, hauth, _, _⟩ := (mem_repliesOf rows r d).mp hmem
    have hprev : prev ∈ sortByDT rows := List.getElem?_mem h1
    have hr : r ∈ sortByDT rows := List.getElem?_mem h2
    unfold sortByDT at hprev hr
    exact hauth (h r ((mem_stableSort _ _ _).mp hr) prev ((mem_stableSort _ _ _).mp hprev))
  simp [analyze_response_time, hrep]

/-- Claim C2 counterexample: on `"[01/02/2023, 10:00:00] : Hello"` the
grammar matches with an *empty* captured author; the claim's reading
(buffer seeded, continuation appended, flushed at end of input) predicts
one message, but the Python truthiness test `if author:` treats the empty
author like "no message started": the continuation line is discarded, the
pending buffer is never flushed, and the parse yields zero messages. -/
theorem claim_C2_counterexample :
    parse_chat_content exC2text = [] ∧
    (let final := (pySplitlines exC2text).foldl
        (parseStep (matchPattern (detect_best_pattern (pySplitlines exC2text)))) initPState
     final.buf = ["Hello"] ∧ final.authorO = some "" ∧ parseFinish final = []) := by
  decide

/-- Claim C2, amended: a matching line flushes the buffered previous
message iff the previous author is non-empty, and seeds a fresh buffer
with the captured groups; a non-matching line is appended to the buffer
iff the current author is non-empty (so it is silently discarded both
before any message has started and while the current captured author is
empty, and a buffered message with empty author is never emitted); at end
of input the pending message is flushed iff its author is non-empty; the
two-line example still produces exactly one message with body
`"Hello world"`. -/
theorem claim_C2_amended :
    (∀ (m : List Char → Option Groups) (s : PState) (line : String) (d t a msg : String),
      m (pyStripL line.data) = some (d, t, a, msg) →
      parseStep m s line
        = { data := s.data ++ (if truthyStr s.authorO then [flushRec s] else []),
            buf := [msg], dateO := some d, timeO := some t, authorO := some a }) ∧
    (∀ (m : List Char → Option Groups) (s : PState) (line : String),
      m (pyStripL line.data) = none →
      parseStep m s line
        = if truthyStr s.authorO then
            { s with buf := s.buf ++ [(⟨pyStripL line.data⟩ : String)] }
          else s) ∧
    (∀ s : PState,
      parseFinish s = s.data ++ (if truthyStr s.authorO then [flushRec s] else [])) ∧
    (∀ (m : List Char → Option Groups) (lines : List String),
      (∀ line ∈ lines, m (pyStripL line.data) = none) → parseMessages m lines = []) ∧
    parse_chat_content exC2good
      = [⟨"01/02/2023", "10:00:00", "Alice", "Hello world", ⟨2023, 2, 1, 10, 0, 0⟩⟩] := by
  refine ⟨?_, ?_, ?_, ?_, by decide⟩
  · intro m s line d t a msg hm
    simp only [parseStep, hm]
    by_cases ht : truthyStr s.authorO <;> simp [ht]
  · intro m s line hm
    simp only [parseStep, hm]
  · intro s
    simp only [parseFinish]
    by_cases ht : truthyStr s.authorO <;> simp [ht]
  · intro m lines h
    have haux : ∀ (ls : List String), (∀ line ∈ ls, m (pyStripL line.data) = none) →
        ls.foldl (parseStep m) initPState = initPState := by
      intro ls hls
      induction ls with
      | nil => rfl
      | cons x xs ih =>
        rw [List.foldl_cons]
        have hstep : parseStep m initPState x = initPState := by
          simp [parseStep, hls x (List.mem_cons_self x xs), initPState, truthyStr]
        rw [hstep]
        exact ih fun line hl => hls line (List.mem_cons_of_mem x hl)
    rw [parseMessages, haux lines h]
    rfl

/-- Claim C3 counterexample: in a 201-line transcript where a handful of
lines (3) match grammar family 1, 97 lines match nothing, and 101 lines —
more than half of the transcript — match family 3, the detector samples
only the first 100 lines and selects family 1 (index 0), not family 3
(index 2). -/
theorem claim_C3_counterexample :
    2 * exC3lines.countP (fun l => (pat3 (pyStripL l.data)).isSome) > exC3lines.length ∧
    exC3lines.countP (fun l => (pat1 (pyStripL l.data)).isSome) = 3 ∧
    detect_best_pattern exC3lines = 0 := by
  decide

/-- Claim C3, amended: the detector counts matches over the sampled first
100 lines only; it returns the first grammar attaining the maximal sample
count (so ties break by list order, and with no match anywhere the first
grammar is returned); and whenever family 3 matches more than half of the
*sampled* lines it is selected — family 3 (digit-first) is disjoint from
the four bracket-first grammars, so no other grammar can tie it there. -/
theorem claim_C3_amended :
    (∀ lines : List String,
      [0, 1, 2, 3, 4].find?
          (fun i => patCount lines i == listMaxCnt (patCount lines) [0, 1, 2, 3, 4])
        = some (detect_best_pattern lines)) ∧
    (∀ lines : List String, (∀ i ∈ ([0, 1, 2, 3, 4] : List Nat), patCount lines i = 0) →
      detect_best_pattern lines = 0) ∧
    (∀ lines : List String,
      2 * patCount lines 2 > (lines.take 100).length → detect_best_pattern lines = 2) := by
  have hchar : ∀ lines : List String,
      [0, 1, 2, 3, 4].find?
          (fun i => patCount lines i == listMaxCnt (patCount lines) [0, 1, 2, 3, 4])
        = some (detect_best_pattern lines) := by
    intro lines
    by_cases h : 0 < listMaxCnt (patCount lines) [0, 1, 2, 3, 4]
    · exact detectLoop_max (patCount lines) [0, 1, 2, 3, 4] 0 0 h
    · have hz : listMaxCnt (patCount lines) [0, 1, 2, 3, 4] = 0 := by omega
      have h0 : patCount lines 0 = 0 := by
        have := listMaxCnt_le (patCount lines) [0, 1, 2, 3, 4] 0 (by simp)
        omega
      rw [List.find?_cons_of_pos _ (by simp [h0, hz])]
      rw [show detect_best_pattern lines
          = detectLoop (patCount lines) 0 0 [0, 1, 2, 3, 4] from rfl]
      rw [detectLoop_const (patCount lines) 0 0 _ fun x hx => by
        have := listMaxCnt_le (patCount lines) [0, 1, 2, 3, 4] x hx
        omega]
  refine ⟨hchar, ?_, ?_⟩
  · intro lines h
    rw [show detect_best_pattern lines
        = detectLoop (patCount lines) 0 0 [0, 1, 2, 3, 4] from rfl]
    exact detectLoop_const (patCount lines) 0 0 _ fun x hx => le_of_eq (h x hx)
  · intro lines h
    have hdisj : ∀ i ∈ ([0, 1, 3, 4] : List Nat),
        patCount lines i + patCount lines 2 ≤ (lines.take 100).length := by
      intro i hi
      refine countP_disjoint _ _ _ ?_
      intro x _ hp
      cases hq : (pat3 (pyStripL x.data)) with
      | none => simp [patCount, matchPattern, MESSAGE_PATTERNS, hq]
      | some g =>
        exfalso
        obtain ⟨d1, d2, d4, d5⟩ := pat3_disjoint _ g hq
        fin_cases hi <;>
          simp only [matchPattern, MESSAGE_PATTERNS, List.getD] at hp <;>
          simp_all [d1, d2, d4, d5]
    have hlt : ∀ i ∈ ([0, 1, 3, 4] : List Nat), patCount lines i < patCount lines 2 := by
      intro i hi
      have := hdisj i hi
      omega
    have h0 := hlt 0 (by simp)
    have h1 := hlt 1 (by simp)
    have h3 := hlt 3 (by simp)
    have h4 := hlt 4 (by simp)
    have hmax : listMaxCnt (patCount lines) [0, 1, 2, 3, 4] = patCount lines 2 := by
      simp only [listMaxCnt, List.foldr_cons, List.foldr_nil]
      omega
    have hfind := hchar lines
    rw [List.find?_cons_of_neg _ (by simp [hmax]; omega),
      List.find?_cons_of_neg _ (by simp [hmax]; omega),
      List.find?_cons_of_pos _ (by simp [hmax])] at hfind
    injection hfind with h2
    exact h2.symm

/-- Claim C4 counterexample: in a two-row transcript where exactly half
the rows parse under the day-first assumption (one ambiguous date, one
impossible date), the claim's stated strategy ("retry only if *fewer than
half* parsed") keeps the day-first column (Feb 1), but the code's loop
retries on `parsed > n*0.5` failing at exactly half and keeps the
month-first column (Jan 2): the resulting Message Stores differ. -/
theorem claim_C4_counterexample :
    parse_chat_content exC4text
      = [⟨"01/02/2023", "10:00:00", "A", "hi", ⟨2023, 1, 2, 10, 0, 0⟩⟩] ∧
    claimStatedParse exC4text
      = [⟨"01/02/2023", "10:00:00", "A", "hi", ⟨2023, 2, 1, 10, 0, 0⟩⟩] ∧
    parse_chat_content exC4text ≠ claimStatedParse exC4text := by
  decide

/-- Claim C4, amended: the day-first column is kept iff *strictly more
than half* of the rows parse under it; otherwise the month-first column is
kept regardless of how many rows it parses (the coercing parser never
raises, so the further permissive fall-back of lines 142–145 is
unreachable).  Under the chosen strategy the store is the order-preserving
`filterMap` of the rows: rows whose timestamp does not parse are dropped,
uniformly, never retried individually. -/
theorem claim_C4_amended :
    ∀ rows : List RawRec,
      (2 * (rows.map (rowParse true)).countP Option.isSome > rows.length →
        attachDatetime mkRow rowParse rows
          = rows.filterMap fun r => (rowParse true r).map (mkRow r)) ∧
      (¬ 2 * (rows.map (rowParse true)).countP Option.isSome > rows.length →
        attachDatetime mkRow rowParse rows
          = rows.filterMap fun r => (rowParse false r).map (mkRow r)) := by
  intro rows
  constructor
  · intro h
    rw [attachDatetime, datetimeColumn]
    simp only [if_pos h]
    exact zip_map_filterMap rows (rowParse true) mkRow
  · intro h
    rw [attachDatetime, datetimeColumn]
    simp only [if_neg h]
    exact zip_map_filterMap rows (rowParse false) mkRow

/-- Claim C1 counterexample: on a Message Store with zero messages,
`get_summary`, `analyze_message_length` and `calculate_achievements` all
raise (`value_counts().index[0]` / `idxmax()` on an empty series), instead
of returning the designated default bundle the claim asserts for every
metric. -/
theorem claim_C1_counterexample :
    get_summary ([] : List Row) = none ∧
    analyze_message_length 10 ([] : List Row) = none ∧
    calculate_achievements (fun _ => false) ([] : List Row) = none := by
  decide

/-- Claim C1, amended: on a zero-message store, eleven of the fourteen
metrics return their designated empty/default bundles, but `get_summary`,
`analyze_message_length` and `calculate_achievements` raise; on a
non-empty degenerate store with no qualifying replies (in particular any
single-author store) no metric raises — the three partial metrics return
results and Response Time returns its designated empty bundle with a null
fastest responder and the fall-back insight. -/
theorem claim_C1_amended :
    (∀ limit : Nat, analyze_volume limit ([] : List Row) = ⟨[], 0, none, none⟩) ∧
    (∀ (gs : String → Frac) (limit : Nat),
      analyze_sentiment gs limit ([] : List Row) = ⟨[], none, none, none⟩) ∧
    (∀ limit : Nat,
      analyze_response_time limit ([] : List Row) = ⟨[], none, none, some .fallback⟩) ∧
    analyze_hourly_activity ([] : List Row)
      = ⟨(List.range 24).map fun h => (h, 0), 0, "00:00"⟩ ∧
    analyze_weekly_activity ([] : List Row)
      = ⟨days_order.map fun d => (d, 0), "Monday", 0, 0, 0⟩ ∧
    (∀ (ed : Char → Bool) (limit : Nat),
      analyze_emojis ed limit ([] : List Row) = ⟨[], [], [], 0, none⟩) ∧
    (∀ limit : Nat, analyze_links limit ([] : List Row) = ⟨[], 0, none, .noLinks⟩) ∧
    (∀ limit : Nat, get_leaderboard limit ([] : List Row) = ⟨[]⟩) ∧
    analyze_conversation_roles ([] : List Row) = ⟨[], [], none, none, none, none⟩ ∧
    detect_monologues 3 ([] : List Row) = ⟨[], none, .balanced⟩ ∧
    (∀ limit : Nat, analyze_word_frequency limit ([] : List Row) = ⟨[]⟩) ∧
    get_summary ([] : List Row) = none ∧
    (∀ limit : Nat, analyze_message_length limit ([] : List Row) = none) ∧
    (∀ ed : Char → Bool, calculate_achievements ed ([] : List Row) = none) ∧
    (∀ (rows : List Row) (limit : Nat) (ed : Char → Bool),
      rows ≠ [] → repliesOf rows = [] →
      (get_summary rows).isSome ∧ (analyze_message_length limit rows).isSome ∧
        (calculate_achievements ed rows).isSome ∧
        analyze_response_time limit rows = ⟨[], none, none, some .fallback⟩) := by
  refine ⟨?_, ?_, ?_, by decide, by decide, ?_, ?_, ?_, by decide, by decide, ?_, by decide,
    ?_, ?_, ?_⟩
  · intro limit
    simp [analyze_volume, valueCounts, firstOccur, stableSort, List.take_nil]
  · intro gs limit
    simp [analyze_sentiment, valueCounts, firstOccur, stableSort, groupbyMean, fmean,
      List.take_nil]
  · intro limit
    simp [analyze_response_time, repliesOf, sortByDT, stableSort, withPrev]
  · intro ed limit
    simp [analyze_emojis, valueCounts, firstOccur, stableSort, groupbySum, List.take_nil]
  · intro limit
    simp [analyze_links, valueCounts, firstOccur, stableSort, groupbySum, List.take_nil]
  · intro limit
    simp [get_leaderboard, valueCounts, firstOccur, stableSort, List.take_nil]
  · intro limit
    simp [analyze_word_frequency, valueCounts, firstOccur, stableSort, wordRuns, wordRunsF,
      pyJoin, pyLower, List.take_nil]
  · intro limit
    simp [analyze_message_length, idxmaxRow]
  · intro ed
    rfl
  · intro rows limit ed hne hrep
    refine ⟨?_, ?_, ?_, by simp [analyze_response_time, hrep]⟩
    · match rows, hne with
      | r :: rest, hne =>
        cases hvc : valueCounts ((r :: rest).map (·.author)) with
        | nil => exact absurd hvc (valueCounts_ne_nil _ (by simp))
        | cons p t =>
          obtain ⟨ta, tc⟩ := p
          unfold get_summary
          rw [hvc]
          rfl
    · have hs := idxmaxRow_isSome rows hne
      unfold analyze_message_length
      cases him : idxmaxRow rows with
      | none => rw [him] at hs; simp at hs
      | some lr => simp
    · cases hvc : valueCounts (rows.map cleanAuthor) with
      | nil =>
        exact absurd hvc (valueCounts_ne_nil _ (by
          intro hcon
          exact hne (by simpa using congrArg (List.length) hcon)))
      | cons p t =>
        obtain ⟨cb, cc⟩ := p
        simp [calculate_achievements, hvc, hrep]
